import Mathlib

/-!
Shallow embedding of the placement-resolution engine of the `mpllayout`
package (files `base.py`, `pin.py`, `ruler.py`, `frame.py`, `layout.py`).

Modelling choices:
* Python floats are modelled by exact rationals (the executable fraction
  type `Q` below); `math.isclose` checks are modelled as exact value
  equality (all claim scenarios use exact arithmetic).
* The mutable object graph is modelled as an explicit `World` state: a canvas
  frame plus a list of registered frames, each frame holding two rulers of
  three pins.  Pins are addressed by `PinId` (owner, axis, kind) instead of
  Python object identity; `RulerPin.ruler_pos` is the fixed function
  `rulerPosOf` of a pin's kind (the pins are created with 1.0 / 0.5 / 0.0).
* Python `set` iteration in `_get_anchorable_pins` is modelled as the
  `pins_dict` insertion order `pmax, pmid, pmin` (the order the pins are
  created by `LinearRuler.init_pins`).
* Exceptions become `Except Err`; `solve_placement_resursive`'s mutable
  `dep_path` list is threaded explicitly and returned both on success and
  inside errors (matching the in-place mutation that the caller observes).
* General recursion over the object graph is modelled with a fuel parameter;
  fuel exhaustion is the artificial error `Err.outOfFuel`.
-/

namespace MplLayout

/-- Executable exact rationals standing in for Python floats.  Mathlib's `ℚ`
has `@[irreducible]` arithmetic, so a fraction type with plain `Int`
arithmetic is used instead: `num / den` with a positive denominator, not
necessarily reduced.  Value comparisons (Python's `==`, `<`, `<=` on floats)
are the cross-multiplication tests `qeq`, `qlt`, `qle` below; `toRat` maps a
value to `ℚ` for the algebraic lemmas. -/
structure Q where
  num : Int
  den : Int
  dpos : 0 < den

instance : DecidableEq Q := fun a b =>
  decidable_of_iff (a.num = b.num ∧ a.den = b.den) (by
    cases a
    cases b
    simp)

instance : Repr Q := ⟨fun q _ => repr (q.num, q.den)⟩

instance (n : Nat) : OfNat Q n := ⟨⟨n, 1, Int.zero_lt_one⟩⟩

instance : Add Q :=
  ⟨fun a b => ⟨a.num * b.den + b.num * a.den, a.den * b.den, Int.mul_pos a.dpos b.dpos⟩⟩

instance : Sub Q :=
  ⟨fun a b => ⟨a.num * b.den - b.num * a.den, a.den * b.den, Int.mul_pos a.dpos b.dpos⟩⟩

instance : Mul Q :=
  ⟨fun a b => ⟨a.num * b.num, a.den * b.den, Int.mul_pos a.dpos b.dpos⟩⟩

instance : Neg Q := ⟨fun a => ⟨-a.num, a.den, a.dpos⟩⟩

/-- Division; a zero divisor yields 0 (the guarded divisions of the source
never divide by zero). -/
instance : Div Q :=
  ⟨fun a b =>
    if h : 0 < b.num then ⟨a.num * b.den, a.den * b.num, Int.mul_pos a.dpos h⟩
    else if h' : b.num < 0 then
      ⟨-(a.num * b.den), a.den * -b.num, Int.mul_pos a.dpos (Int.neg_pos.mpr h')⟩
    else 0⟩

/-- Value equality (Python `==` on floats). -/
def qeq (a b : Q) : Bool := a.num * b.den == b.num * a.den

/-- Value order (Python `<`). -/
def qlt (a b : Q) : Bool := decide (a.num * b.den < b.num * a.den)

/-- Value order (Python `<=`). -/
def qle (a b : Q) : Bool := decide (a.num * b.den ≤ b.num * a.den)

/-- Python `max` of two values. -/
def qmax (a b : Q) : Q := if qle a b then b else a

/-- Python `min` of two values. -/
def qmin (a b : Q) : Q := if qle a b then a else b

/-- The rational value of a `Q`. -/
def toRat (q : Q) : ℚ := (q.num : ℚ) / (q.den : ℚ)

/-- Kind of a pin in a `LinearRuler`: the pins `pmax`, `pmid`, `pmin` created
by `LinearRuler.init_pins` with ruler positions 1.0, 0.5, 0.0. -/
inductive PinKind
| pmax
| pmid
| pmin
deriving DecidableEq, Repr

/-- The two axes of a 2-D frame: the horizontal and the vertical ruler. -/
inductive Axis2D
| hor
| ver
deriving DecidableEq, Repr

/-- Owner of a ruler/pin: the canvas frame or a registered frame (by index in
the layout's registry). -/
inductive Owner
| canvas
| frame (i : Nat)
deriving DecidableEq, Repr

/-- Address of a pin in the world: owning frame, axis (which ruler), kind. -/
structure PinId where
  owner : Owner
  ax : Axis2D
  kind : PinKind
deriving DecidableEq, Repr

/-- State of one `RulerPin`: `figpos` (placement), `figpos_ref` (reference
pin) and `figpos_offset`. -/
structure PinCore where
  pos : Option Q
  ref : Option PinId
  offset : Q
deriving DecidableEq, Repr

/-- A pin as freshly constructed: unplaced, no reference, offset 0. -/
def PinCore.empty : PinCore := ⟨none, none, 0⟩

/-- State of one `LinearRuler`: explicit `_ruler_length` and the three pins. -/
structure RulerCore where
  len : Option Q
  pmax : PinCore
  pmid : PinCore
  pmin : PinCore
deriving DecidableEq, Repr

/-- A ruler as freshly constructed. -/
def RulerCore.empty : RulerCore := ⟨none, .empty, .empty, .empty⟩

/-- State of one `Frame2DBase`: the horizontal and vertical ruler. -/
structure FrameCore where
  hr : RulerCore
  vr : RulerCore
deriving DecidableEq, Repr

/-- A frame as freshly constructed. -/
def FrameCore.empty : FrameCore := ⟨.empty, .empty⟩

/-- The whole layout state: the canvas frame, the registered frames (ordered
registry), their names, and the layout's `origin` anchor name. -/
structure World where
  canvas : FrameCore
  frames : List FrameCore
  names : List String
  origin : String
deriving DecidableEq, Repr

/-- RulerPin.ruler_pos of each pin kind, as set by `LinearRuler.init_pins`. -/
def rulerPosOf : PinKind → Q
| .pmax => 1
| .pmid => 1/2
| .pmin => 0

/-- Iteration order of `pins_dict` (insertion order in `init_pins`). -/
def pinKinds : List PinKind := [.pmax, .pmid, .pmin]

/-- Select a pin of a ruler by kind. -/
def RulerCore.pin (r : RulerCore) : PinKind → PinCore
| .pmax => r.pmax
| .pmid => r.pmid
| .pmin => r.pmin

/-- Replace a pin of a ruler. -/
def RulerCore.setPin (r : RulerCore) : PinKind → PinCore → RulerCore
| .pmax, p => { r with pmax := p }
| .pmid, p => { r with pmid := p }
| .pmin, p => { r with pmin := p }

/-- Select a ruler of a frame by axis. -/
def FrameCore.ruler (f : FrameCore) : Axis2D → RulerCore
| .hor => f.hr
| .ver => f.vr

/-- Replace a ruler of a frame. -/
def FrameCore.setRuler (f : FrameCore) : Axis2D → RulerCore → FrameCore
| .hor, r => { f with hr := r }
| .ver, r => { f with vr := r }

/-- Look up a frame by owner; an out-of-range index reads as an empty frame
(such an owner is never produced by the layout API). -/
def World.frameOf (w : World) : Owner → FrameCore
| .canvas => w.canvas
| .frame i => w.frames.getD i .empty

/-- Write back a frame by owner (out-of-range writes are dropped). -/
def World.setFrame (w : World) : Owner → FrameCore → World
| .canvas, f => { w with canvas := f }
| .frame i, f => { w with frames := w.frames.set i f }

/-- Pin state at an address. -/
def World.pinC (w : World) (p : PinId) : PinCore :=
  ((w.frameOf p.owner).ruler p.ax).pin p.kind

/-- Replace the pin state at an address. -/
def World.setPinC (w : World) (p : PinId) (c : PinCore) : World :=
  let f := w.frameOf p.owner
  w.setFrame p.owner (f.setRuler p.ax ((f.ruler p.ax).setPin p.kind c))

/-- PinBase.set_placement at the world level (position only). -/
def World.setPosOf (w : World) (p : PinId) (v : Option Q) : World :=
  w.setPinC p { w.pinC p with pos := v }

/-- Placement value of a pin with a default, used only where the source has
already checked `is_placed()`. -/
def posValD (p : PinCore) : Q := p.pos.getD 0

/-- The filter argument of `LinearRuler._get_anchorable_pins`. -/
inductive AnchFilt
| both
| placed
| placeable
deriving DecidableEq, Repr

/-- LinearRuler._get_anchorable_pins: pins that are already placed
(`is_placed`, i.e. `figpos` set) or placement-referenced (`is_placeable`,
i.e. `figpos_ref` set), in `pins_dict` iteration order. -/
def RulerCore.anchorableKinds (r : RulerCore) : AnchFilt → List PinKind
| .both => pinKinds.filter fun k => (r.pin k).pos.isSome || (r.pin k).ref.isSome
| .placed => pinKinds.filter fun k => (r.pin k).pos.isSome
| .placeable => pinKinds.filter fun k => (r.pin k).ref.isSome

/-- RulerBase.is_placed: all pins placed. -/
def RulerCore.isPlacedB (r : RulerCore) : Bool :=
  pinKinds.all fun k => (r.pin k).pos.isSome

/-- LinearRuler.is_placeable: number of anchorable pins, plus one if the
explicit ruler length is set, must be at least 2. -/
def RulerCore.isPlaceableB (r : RulerCore) : Bool :=
  decide (2 ≤ (r.anchorableKinds .both).length + (if r.len.isSome then 1 else 0))

/-- LinearRuler.calc_ruler_length: 0 when fewer than two pins are placed,
else the slope through the first two placed pins. -/
def RulerCore.calcLen (r : RulerCore) : Q :=
  match r.anchorableKinds .placed with
  | k1 :: k2 :: _ =>
    if qeq (rulerPosOf k1) (rulerPosOf k2) then 0
    else (posValD (r.pin k1) - posValD (r.pin k2)) / (rulerPosOf k1 - rulerPosOf k2)
  | _ => 0

/-- RulerBase.get_ruler_length: the explicit length if set, else (when
`allow_calculated`) the calculated length, else none. -/
def RulerCore.lengthOpt (r : RulerCore) (allowCalculated : Bool) : Option Q :=
  match r.len with
  | some v => some v
  | none => if allowCalculated then some r.calcLen else none

/-- A placeable element as seen by the recursive dependency solver of
`PlaceableElementBase.solve_placement_resursive`: a pin, a ruler or a frame. -/
inductive Node
| pin (p : PinId)
| ruler (o : Owner) (ax : Axis2D)
| frame (o : Owner)
deriving DecidableEq, Repr

/-- Errors raised by the engine.  The first five mirror the
`PlacementError` exception family of `PlaceableElementBase`
(`CircularDependencyError` carries the reported cycle `dep_path + [self]`;
its message string is rendered from it by `errMessage`); the rest are plain
Python exceptions (`ValueError`, `TypeError`, `NameError`, `AttributeError`,
`AssertionError`); `outOfFuel` is the fuel artifact. -/
inductive Err
| circularDependency (cyc : List Node)
| dependencyUnplaced
| placementUnsolvable
| incomplyingPlacement
| placementBase
| valueError
| typeError
| nameError
| attributeError
| assertionError
| outOfFuel
deriving DecidableEq, Repr

instance {E A : Type} [DecidableEq E] [DecidableEq A] : DecidableEq (Except E A) :=
  fun a b =>
    match a, b with
    | .ok x, .ok y => decidable_of_iff (x = y) (by simp)
    | .error x, .error y => decidable_of_iff (x = y) (by simp)
    | .ok _, .error _ => isFalse (by simp)
    | .error _, .ok _ => isFalse (by simp)

/-- Membership in the `PlacementError` family of `PlaceableElementBase`
(as opposed to plain Python exceptions such as `ValueError`). -/
def Err.isPlacementFamily : Err → Bool
| .circularDependency _ => true
| .dependencyUnplaced => true
| .placementUnsolvable => true
| .incomplyingPlacement => true
| .placementBase => true
| _ => false

/-- ElementBase.global_name of an owner: the canvas frame is a root named
"canvas"; registered frames have the canvas frame as parent. -/
def ownerGlobalName (names : List String) : Owner → String
| .canvas => "canvas"
| .frame i => "canvas/" ++ names.getD i ""

/-- Local name of a ruler, as created by `Frame2DBase.__init__`. -/
def axRulerName : Axis2D → String
| .hor => "h_ruler"
| .ver => "v_ruler"

/-- Local name of a pin, as created by `LinearRuler.init_pins`. -/
def kindName : PinKind → String
| .pmax => "pmax"
| .pmid => "pmid"
| .pmin => "pmin"

/-- ElementBase.global_name of a node (parents joined by "/"). -/
def nodeGlobalName (names : List String) : Node → String
| .frame o => ownerGlobalName names o
| .ruler o ax => ownerGlobalName names o ++ "/" ++ axRulerName ax
| .pin p =>
  ownerGlobalName names p.owner ++ "/" ++ axRulerName p.ax ++ "/" ++ kindName p.kind

/-- Message string of an error; for `CircularDependencyError` this renders
the reported cycle exactly as `solve_placement_resursive` does: the global
names of `dep_path + [self]` joined by "=>". -/
def errMessage (names : List String) : Err → String
| .circularDependency cyc =>
  "circular dependency found: " ++ String.intercalate ("=>") (cyc.map (nodeGlobalName names))
| _ => ""

/-- One step of the placing loop of `LinearRuler.solve_placement`: an
already placed pin is kept, an unplaced pin is placed by linear
interpolation from the base pin `k0` (placed at `base`). -/
def placePinStep (base : Q) (k0 : PinKind) (rlen : Q) (acc : RulerCore)
    (k : PinKind) : RulerCore :=
  if (acc.pin k).pos.isSome then acc
  else acc.setPin k
    { acc.pin k with pos := some (base + (rulerPosOf k - rulerPosOf k0) * rlen) }

/-- LinearRuler.solve_placement (the local, non-recursive solve).
Order of operations as in the source: the `is_placeable` guard, resolving a
ruler length with `allow_calculated = True`, then unpacking the placed
anchorable pins (an empty collection raises Python's `ValueError` from the
starred unpacking), then placing every unplaced pin by linear interpolation
from the first placed pin. -/
def RulerCore.solveLocal (r : RulerCore) : Except Err RulerCore :=
  if ¬ r.isPlaceableB then .error .placementUnsolvable
  else match r.lengthOpt true with
  | none => .error .dependencyUnplaced
  | some rlen =>
    match r.anchorableKinds .placed with
    | [] => .error .valueError
    | k0 :: _ =>
      let base := posValD (r.pin k0)
      .ok (pinKinds.foldl (placePinStep base k0 rlen) r)

/-- PlaceableElementBase.is_placed per node kind: a pin is placed when its
`figpos` is set; a ruler when all its pins are; a frame when both rulers are. -/
def World.isPlacedNode (w : World) : Node → Bool
| .pin p => (w.pinC p).pos.isSome
| .ruler o ax => ((w.frameOf o).ruler ax).isPlacedB
| .frame o => ((w.frameOf o).hr).isPlacedB && ((w.frameOf o).vr).isPlacedB

/-- get_dependencies per node kind: a pin depends on its reference pin if
set, else on its parent ruler (`RulerPin._get_dependency`); a ruler on its
placeable (reference-constrained) pins; a frame on its two rulers. -/
def World.depsOf (w : World) : Node → List Node
| .pin p =>
  match (w.pinC p).ref with
  | some rp => [.pin rp]
  | none => [.ruler p.owner p.ax]
| .ruler o ax =>
  (((w.frameOf o).ruler ax).anchorableKinds .placeable).map fun k => .pin ⟨o, ax, k⟩
| .frame o => [.ruler o .hor, .ruler o .ver]

/-- solve_placement (the local solve) per node kind.  For a pin with no
reference the source dereferences `self.figpos_ref.is_placed()` on `None`,
which raises Python's `AttributeError`; with an unplaced reference it raises
`PlacementUnsolvableError`.  A frame forwards to both rulers in order. -/
def World.solveNodeLocal (w : World) : Node → Except Err World
| .pin p =>
  match (w.pinC p).ref with
  | none => .error .attributeError
  | some rp =>
    match (w.pinC rp).pos with
    | none => .error .placementUnsolvable
    | some x => .ok (w.setPosOf p (some (x + (w.pinC p).offset)))
| .ruler o ax =>
  match ((w.frameOf o).ruler ax).solveLocal with
  | .error e => .error e
  | .ok r' => .ok (w.setFrame o ((w.frameOf o).setRuler ax r'))
| .frame o =>
  match ((w.frameOf o).hr).solveLocal with
  | .error e => .error e
  | .ok rh =>
    let w1 := w.setFrame o ((w.frameOf o).setRuler .hor rh)
    match ((w1.frameOf o).vr).solveLocal with
    | .error e => .error e
    | .ok rv => .ok (w1.setFrame o ((w1.frameOf o).setRuler .ver rv))

/-- PlaceableElementBase.solve_placement_resursive, together with its inner
dependency loop (the `.inr` case, iterating a dependency list left to
right).  The mutable `dep_path` list is threaded explicitly: it is returned
on success, and an error carries the `dep_path` as it stands when the
exception propagates (the source does not pop on the exception path).  The
recursion is structural on the fuel so that it evaluates by `rfl`; fuel is
consumed once per visited node and once per dependency-list step. -/
def solveStep : Nat → Node ⊕ List Node → World → List Node →
    Except (Err × List Node) (World × List Node)
| 0, _, _, path => .error (.outOfFuel, path)
| fuel + 1, .inl node, w, path =>
  if node ∈ path then .error (.circularDependency (path ++ [node]), path)
  else if w.isPlacedNode node then .ok (w, path)
  else
    match solveStep fuel (.inr (w.depsOf node)) w (path ++ [node]) with
    | .error e => .error e
    | .ok (w1, p1) =>
      if w1.isPlacedNode node then .ok (w1, p1.dropLast)
      else
        match w1.solveNodeLocal node with
        | .error e => .error (e, p1)
        | .ok w2 => .ok (w2, p1.dropLast)
| _ + 1, .inr [], w, path => .ok (w, path)
| fuel + 1, .inr (d :: ds), w, path =>
  match solveStep fuel (.inl d) w path with
  | .error e => .error e
  | .ok (w1, p1) => solveStep fuel (.inr ds) w1 p1

/-- Entry point of `solve_placement_resursive` for one node. -/
def solveRec (fuel : Nat) (node : Node) (w : World) (path : List Node) :
    Except (Err × List Node) (World × List Node) :=
  solveStep fuel (.inl node) w path

/-- The nine anchor names of `RectangularFrame`. -/
inductive AnchorName
| bottomleft
| bottom
| bottomright
| left
| center
| right
| topleft
| top
| topright
deriving DecidableEq, Repr, Fintype

/-- The anchor table `RectangularFrame.__anchors_getter`: each anchor maps to
a (horizontal pin kind, vertical pin kind) pair. -/
def anchorHV : AnchorName → PinKind × PinKind
| .bottomleft => (.pmin, .pmin)
| .bottom => (.pmid, .pmin)
| .bottomright => (.pmax, .pmin)
| .left => (.pmin, .pmid)
| .center => (.pmid, .pmid)
| .right => (.pmax, .pmid)
| .topleft => (.pmin, .pmax)
| .top => (.pmid, .pmax)
| .topright => (.pmax, .pmax)

/-- ASCII lowercasing of one character (`str.lower()` restricted to the
ASCII range, which covers every anchor name). -/
def charLower (c : Char) : Char :=
  if c.isUpper then Char.ofNat (c.toNat + 32) else c

/-- ASCII lowercasing of a string, modelling Python's `anchor.lower()`. -/
def asciiLower (s : String) : String := ⟨s.data.map charLower⟩

/-- Anchor-name lookup (case-insensitive, as in
`get_ruler_pins_by_anchor_name`); unknown names yield `none` (the source
raises `ValueError`). -/
def anchorOfString (s : String) : Option AnchorName :=
  let t := asciiLower s
  if t == "bottomleft" then some .bottomleft
  else if t == "bottom" then some .bottom
  else if t == "bottomright" then some .bottomright
  else if t == "left" then some .left
  else if t == "center" then some .center
  else if t == "right" then some .right
  else if t == "topleft" then some .topleft
  else if t == "top" then some .top
  else if t == "topright" then some .topright
  else none

/-- Pin addresses behind an anchor of a frame: the horizontal ruler's pin and
the vertical ruler's pin. -/
def anchorPinIds (o : Owner) (a : AnchorName) : PinId × PinId :=
  (⟨o, .hor, (anchorHV a).1⟩, ⟨o, .ver, (anchorHV a).2⟩)

/-- get_ruler_pins_by_anchor_name: resolve an anchor name string, raising
`ValueError` on an unknown name. -/
def resolveAnchor (o : Owner) (s : String) : Except Err (PinId × PinId) :=
  match anchorOfString s with
  | none => .error .valueError
  | some a => .ok (anchorPinIds o a)

/-- The `position` argument of `Frame2DBase.set_placement`, which in Python
may be a tuple, a list, or any other object. -/
inductive PyPos
| tup (xs : List Q)
| lst (xs : List Q)
| other
deriving DecidableEq, Repr

/-- Frame2DBase.set_placement.  The source's type guard is
`not ((isinstance(position, tuple) or isinstance(offsets, list)) and
(len(position) == 2))` where the name `offsets` is not defined in that
scope: a 2-element tuple passes, a tuple of another length raises
`TypeError`, and any non-tuple (including a list) makes Python evaluate the
undefined name `offsets` and raise `NameError`.  On the accepted path each
anchor pin's placement reference is cleared and its position set. -/
def setPlacementFrame (w : World) (o : Owner) (anchor : String) (position : PyPos) :
    Except Err World :=
  match position with
  | .tup xs =>
    if xs.length = 2 then
      match resolveAnchor o anchor with
      | .error e => .error e
      | .ok (p1, p2) =>
        let w1 := w.setPinC p1 ⟨some (xs.getD 0 0), none, 0⟩
        .ok (w1.setPinC p2 ⟨some (xs.getD 1 0), none, 0⟩)
    else .error .typeError
  | _ => .error .nameError

/-- Frame2DBase.set_anchor, reduced to its pin-level effect: each of the two
pins behind `anchor` of frame `o` gets a placement reference to the
corresponding pin behind `refAnchor` of `refO`, with the per-axis offset.
(The argument-defaulting and type checks of the source are not modelled;
the claims only exercise explicit frame/anchor arguments.) -/
def setAnchorPins (w : World) (o : Owner) (a : AnchorName) (refO : Owner)
    (ra : AnchorName) (dx dy : Q) : World :=
  let p := anchorPinIds o a
  let q := anchorPinIds refO ra
  let w1 := w.setPinC p.1 { w.pinC p.1 with ref := some q.1, offset := dx }
  w1.setPinC p.2 { w1.pinC p.2 with ref := some q.2, offset := dy }

/-- Clear the placements of all pins of a ruler. -/
def clearRulerPins (r : RulerCore) : RulerCore :=
  { r with
    pmax := { r.pmax with pos := none }
    pmid := { r.pmid with pos := none }
    pmin := { r.pmin with pos := none } }

/-- Frame2DBase.clear_placement with `anchor = None`: the source iterates the
nine anchors, which together cover all six pins of the frame. -/
def clearFramePins (f : FrameCore) : FrameCore :=
  ⟨clearRulerPins f.hr, clearRulerPins f.vr⟩

/-- RectangularFrame.set_size: store the explicit lengths of both rulers. -/
def setFrameSize (w : World) (o : Owner) (wd ht : Option Q) : World :=
  let f := w.frameOf o
  w.setFrame o ⟨{ f.hr with len := wd }, { f.vr with len := ht }⟩

/-- Frame2DBase.get_placement: the current positions of the two pins behind
an anchor (each may be unset). -/
def framePlacement (w : World) (o : Owner) (anchor : String) :
    Except Err (Option Q × Option Q) :=
  match resolveAnchor o anchor with
  | .error e => .error e
  | .ok (p1, p2) => .ok ((w.pinC p1).pos, (w.pinC p2).pos)

/-- PinBase.verify_placement: only checked when the pin has a placement
reference; both pins must then be placed (else the bare `PlacementError`),
and the position difference must equal the offset (`math.isclose` modelled
as exact equality) else `IncomplyingPlacementError`. -/
def pinVerify (w : World) (p : PinId) : Except Err Unit :=
  let c := w.pinC p
  match c.ref with
  | none => .ok ()
  | some rp =>
    match c.pos, (w.pinC rp).pos with
    | some x, some y =>
      if qeq (x - y) c.offset then .ok () else .error .incomplyingPlacement
    | _, _ => .error .placementBase

/-- LinearRuler.verify_placement: each pin's verify, then the midpoint
identity `pmax + pmin == 2 * pmid` and the non-negative-length ordering
`pmax >= pmin`.  Reading an unplaced pin's position in the arithmetic would
be a Python `TypeError` on `None`. -/
def rulerVerify (w : World) (o : Owner) (ax : Axis2D) : Except Err Unit :=
  match pinVerify w ⟨o, ax, .pmax⟩ with
  | .error e => .error e
  | .ok _ =>
  match pinVerify w ⟨o, ax, .pmid⟩ with
  | .error e => .error e
  | .ok _ =>
  match pinVerify w ⟨o, ax, .pmin⟩ with
  | .error e => .error e
  | .ok _ =>
  let r := (w.frameOf o).ruler ax
  match r.pmax.pos, r.pmid.pos, r.pmin.pos with
  | some a, some m, some b =>
    if qeq (a + b) (m * 2) then
      if qlt a b then .error .incomplyingPlacement else .ok ()
    else .error .incomplyingPlacement
  | _, _, _ => .error .typeError

/-- Frame2DBase.verify_placement: both rulers in order. -/
def frameVerify (w : World) (o : Owner) : Except Err Unit :=
  match rulerVerify w o .hor with
  | .error e => .error e
  | .ok _ => rulerVerify w o .ver

/-- Low-side extent of a frame on an axis: `get_extent()[idx * 2]`, the
`pmin` pin's position of that axis' ruler. -/
def extentLowOf (f : FrameCore) (ax : Axis2D) : Option Q := ((f.ruler ax).pmin).pos

/-- High-side extent of a frame on an axis: `get_extent()[idx * 2 + 1]`. -/
def extentHighOf (f : FrameCore) (ax : Axis2D) : Option Q := ((f.ruler ax).pmax).pos

/-- The `min(...)`/`max(...)` over all registered frames' extents in
`_solve_canvas_ruler_placement`.  An empty registry raises Python's
`ValueError` (min of an empty sequence); an unplaced extent pin makes the
arithmetic meet `None` and raise `TypeError`. -/
def gatherExtents (w : World) (ax : Axis2D) : Except Err (Q × Q) :=
  match w.frames with
  | [] => .error .valueError
  | f0 :: fs =>
    let lows := (f0 :: fs).map fun f => extentLowOf f ax
    let highs := (f0 :: fs).map fun f => extentHighOf f ax
    if (lows.all Option.isSome && highs.all Option.isSome) then
      .ok ((lows.map (fun x => x.getD 0)).foldl qmin (lows.headD none |>.getD 0),
        (highs.map (fun x => x.getD 0)).foldl qmax (highs.headD none |>.getD 0))
    else .error .typeError

/-- LayoutCreator._calc_inclusive_rlen: asserts the reference pin sits at
exactly 0, then the needed length is
`max(inc_max / (1 - rpos) [or 0 at rpos = 1], (-inc_min) / rpos [or 0 at
rpos = 0], 0)`. -/
def calcInclusiveRlen (pinPos : Option Q) (rpos : Q) (incMin incMax : Q) :
    Except Err Q :=
  match pinPos with
  | none => .error .assertionError
  | some p0 =>
    if ¬ qeq p0 0 then .error .assertionError
    else
      let rlenU := if qeq rpos 1 then 0 else incMax / (1 - rpos)
      let rlenL := if qeq rpos 0 then 0 else (-incMin) / rpos
      .ok (qmax (qmax rlenU rlenL) 0)

/-- Warning message emitted when automatic canvas sizing resolves length 0. -/
def autoSizeWarning (ax : Axis2D) : String :=
  let dim := match ax with
    | .hor => "width"
    | .ver => "height"
  "canvas " ++ dim ++ " cannot be determined automatically"

/-- Overwrite the explicit length slot of a canvas ruler (the
`set_ruler_length` / `clear_ruler_length` calls of
`_solve_canvas_ruler_placement`; the cleared form passes `none`). -/
def setCanvasRulerLen (w : World) (ax : Axis2D) (l : Option Q) : World :=
  w.setFrame .canvas ((w.frameOf .canvas).setRuler ax
    { (w.frameOf .canvas).ruler ax with len := l })

/-- LayoutCreator._solve_canvas_ruler_placement for one axis (`dim` "width"
is the horizontal ruler with extent index 0, "height" the vertical with
index 1).  Returns the new world and the list of emitted warnings. -/
def solveCanvasRuler (fuel : Nat) (w : World) (ax : Axis2D) :
    Except Err (World × List String) :=
  let r := (w.frameOf .canvas).ruler ax
  if r.isPlacedB then
    match rulerVerify w .canvas ax with
    | .error e => .error e
    | .ok _ => .ok (w, [])
  else if r.isPlaceableB then
    match solveRec fuel (.ruler .canvas ax) w [] with
    | .error e => .error e.1
    | .ok (w1, _) =>
      match rulerVerify w1 .canvas ax with
      | .error e => .error e
      | .ok _ => .ok (w1, [])
  else
    match resolveAnchor .canvas w.origin with
    | .error e => .error e
    | .ok pq =>
      let pid := match ax with
        | .hor => pq.1
        | .ver => pq.2
      match gatherExtents w ax with
      | .error e => .error e
      | .ok lohi =>
        match calcInclusiveRlen (w.pinC pid).pos (rulerPosOf pid.kind) lohi.1 lohi.2 with
        | .error e => .error e
        | .ok rlen =>
          let warns := if qeq rlen 0 then [autoSizeWarning ax] else []
          let w1 := setCanvasRulerLen w ax (some rlen)
          match solveRec fuel (.ruler .canvas ax) w1 [] with
          | .error e => .error e.1
          | .ok (w2, _) =>
            let w3 := setCanvasRulerLen w2 ax none
            match rulerVerify w3 .canvas ax with
            | .error e => .error e
            | .ok _ => .ok (w3, warns)

/-- The per-frame `solve_placement_resursive()` loop of `place_all_frames`
(each call starts with a fresh `dep_path`). -/
def solveFramesList (fuel : Nat) : List Nat → World → Except Err World
| [], w => .ok w
| i :: is, w =>
  match solveRec fuel (.frame (.frame i)) w [] with
  | .error e => .error e.1
  | .ok (w1, _) => solveFramesList fuel is w1

/-- The per-frame `verify_placement()` loop of `place_all_frames`. -/
def verifyFramesList : List Nat → World → Except Err Unit
| [], _ => .ok ()
| i :: is, w =>
  match frameVerify w (.frame i) with
  | .error e => .error e
  | .ok _ => verifyFramesList is w

/-- The prelude of `place_all_frames`: clear the canvas placement, place the
origin anchor at the literal (0, 0), clear every registered frame's
placement. -/
def preludeW (w0 : World) : Except Err World :=
  let wA := { w0 with canvas := clearFramePins w0.canvas }
  match setPlacementFrame wA .canvas wA.origin (.tup [0, 0]) with
  | .error e => .error e
  | .ok wB => .ok { wB with frames := wB.frames.map clearFramePins }

/-- LayoutCreator.place_all_frames: the prelude above, then solve every frame
recursively, verify every frame, then resolve the canvas rulers (width, then
height), collecting auto-sizing warnings. -/
def placeAllFrames (fuel : Nat) (w0 : World) : Except Err (World × List String) :=
  match preludeW w0 with
  | .error e => .error e
  | .ok wC =>
    match solveFramesList fuel (List.range wC.frames.length) wC with
    | .error e => .error e
    | .ok wD =>
      match verifyFramesList (List.range wD.frames.length) wD with
      | .error e => .error e
      | .ok _ =>
        match solveCanvasRuler fuel wD .hor with
        | .error e => .error e
        | .ok (wE, warnsH) =>
          match solveCanvasRuler fuel wE .ver with
          | .error e => .error e
          | .ok (wF, warnsV) => .ok (wF, warnsH ++ warnsV)

/-- LayoutCreator.add_frame: reject a duplicate name and the reserved layout
output key "figure", otherwise register a new frame whose parent is the
canvas frame.  (The `frame_class` subtype check is not modelled; the
embedding fixes the default frame class.)  Returns the new frame's registry
index. -/
def addFrame (w : World) (name : String) : Except Err (World × Nat) :=
  if name ∈ w.names then .error .valueError
  else if name = "figure" then .error .valueError
  else .ok ({ w with frames := w.frames ++ [FrameCore.empty], names := w.names ++ [name] },
    w.frames.length)

/-! Concrete layouts and derived forms used by the theorems below. -/

/-- A fresh layout with `n` registered frames named `ns` (the state produced
by `LayoutCreator.__init__` plus `n` `add_frame` calls, before any
constraint is declared); the origin anchor is the default "bottomleft". -/
def freshWorld (ns : List String) : World :=
  ⟨.empty, ns.map fun _ => .empty, ns, "bottomleft"⟩

/-- Layout of claim C1: a single frame whose `bottomleft` anchor is directly
set to the absolute position (0, 0) and whose size is 4 x 2.5 (the frame
name is immaterial to the solve; "main" is used). -/
def c1World : World :=
  let base := freshWorld ["main"]
  let w1 := match setPlacementFrame base (.frame 0) "bottomleft" (.tup [0, 0]) with
    | .ok w => w
    | .error _ => base
  setFrameSize w1 (.frame 0) (some 4) (some (5/2))

/-- Two frames "A" and "B" whose `bottomleft` anchors reference each other
(each `set_anchor` call links both the horizontal and vertical pin), with no
other constraint: a direct circular dependency. -/
def cycWorld : World :=
  let w1 := setAnchorPins (freshWorld ["A", "B"]) (.frame 0) .bottomleft (.frame 1) .bottomleft 0 0
  setAnchorPins w1 (.frame 1) .bottomleft (.frame 0) .bottomleft 0 0

/-- The result of solving frame "A" of `cycWorld` (used to extract the
`dep_path` state observed after the raised circular-dependency error). -/
def cycResult : Err × List Node :=
  match solveRec 30 (.frame (.frame 0)) cycWorld [] with
  | .ok _ => (.outOfFuel, [])
  | .error e => e

/-- Minimal mutual-anchor configuration: frames "A" and "B" where A's anchor
`a1` references B's `b1` and B's anchor `b2` references A's `a2`, with the
given offsets and no other constraint anywhere. -/
def minCycleWorld (a1 b1 b2 a2 : AnchorName) (o1 o2 o3 o4 : Q) : World :=
  let w1 := setAnchorPins (freshWorld ["A", "B"]) (.frame 0) a1 (.frame 1) b1 o1 o2
  setAnchorPins w1 (.frame 1) b2 (.frame 0) a2 o3 o4

/-- Whether a node belongs (as frame, ruler or pin) to the given owner. -/
def nodeOwnedBy (o : Owner) : Node → Bool
| .pin p => p.owner == o
| .ruler q _ => q == o
| .frame q => q == o

/-- Counterexample layout of claim C4: frames C (index 0), A (1), B (2).
C is directly placed and sized; A's `bottom` and `bottomright` anchors
reference C, A's `bottomleft` references B's `topright`, and B's
`bottomleft` references A's `topright`.  A and B anchor each other and
neither is independently placeable, yet solving A fails with
`PlacementUnsolvableError` (on B's horizontal ruler), not with
`CircularDependencyError`: A's `topright` horizontal pin is placed early
from C, which lets B's `bottomleft` pin resolve before the cycle is
walked. -/
def c4CounterWorld : World :=
  let base := freshWorld ["C", "A", "B"]
  let w1 := match setPlacementFrame base (.frame 0) "bottomleft" (.tup [0, 0]) with
    | .ok w => w
    | .error _ => base
  let w2 := setFrameSize w1 (.frame 0) (some 2) (some 2)
  let w3 := setAnchorPins w2 (.frame 1) .bottom (.frame 0) .bottom 0 0
  let w4 := setAnchorPins w3 (.frame 1) .bottomright (.frame 0) .bottomright 0 0
  let w5 := setAnchorPins w4 (.frame 1) .bottomleft (.frame 2) .topright 0 0
  setAnchorPins w5 (.frame 2) .bottomleft (.frame 1) .topright 0 0

/-- The world of `c4CounterWorld` after frame C has been solved (the order
`place_all_frames` would use: registry order C, A, B). -/
def c4AfterC : World :=
  match solveRec 30 (.frame (.frame 0)) c4CounterWorld [] with
  | .ok p => p.1
  | .error _ => c4CounterWorld

/-- A well-formed demo layout: one frame anchored to the canvas origin with
offsets (1/2, 1/5) and size 4 x 2.5; used as witness data for the
determinism and path-restoration theorems. -/
def demoWorld : World :=
  let w1 := setAnchorPins (freshWorld ["m"]) (.frame 0) .bottomleft .canvas .bottomleft (1/2) (1/5)
  setFrameSize w1 (.frame 0) (some 4) (some (5/2))

/-- The solved pair (world, warnings) of `demoWorld`. -/
def demoSolved : World × List String :=
  match placeAllFrames 30 demoWorld with
  | .ok p => p
  | .error _ => (demoWorld, [])

/-- The (world, dep_path) pair returned by a successful recursive solve of
the C1 layout's frame, started with an empty path. -/
def demoRecPair : World × List Node :=
  match solveRec 30 (.frame (.frame 0)) c1World [] with
  | .ok p => p
  | .error _ => (c1World, [.frame .canvas])

/-- The solved world of the C1 layout (extracted from the recursive solve of
its only frame). -/
def c1Solved : World :=
  match solveRec 30 (.frame (.frame 0)) c1World [] with
  | .ok p => p.1
  | .error _ => c1World

/-- Boolean form of the minimal-mutual-anchor cycle property: solving frame
"A" errors with a circular dependency whose reported cycle extends the
active path and mentions nodes of both frames. -/
def c4Check (a1 b1 b2 a2 : AnchorName) : Bool :=
  match solveRec 30 (.frame (.frame 0)) (minCycleWorld a1 b1 b2 a2 0 0 0 0) [] with
  | .error (.circularDependency cyc, p) =>
    cyc.dropLast == p && cyc.any (nodeOwnedBy (.frame 0)) && cyc.any (nodeOwnedBy (.frame 1))
  | _ => false

/-- A ruler with an explicit length, one reference-constrained pin, and no
placed pin: placeable, but its local solve trips over the empty unpacking. -/
def c10Ruler : RulerCore :=
  { len := some 3, pmax := .empty, pmid := .empty,
    pmin := { pos := none, ref := some ⟨.canvas, .hor, .pmin⟩, offset := 0 } }

/-- The pin kind an anchor selects on a given axis (its horizontal pin for
the width pass, its vertical pin for the height pass). -/
def axisKind (ax : Axis2D) (a : AnchorName) : PinKind :=
  match ax with
  | .hor => (anchorHV a).1
  | .ver => (anchorHV a).2

/-- Derived form of one pin after the automatic canvas-extent solve anchored
at the placed pin `k0` (position value 0) with ruler length `L`: the
reference pin keeps its state, every other pin is interpolated. -/
def autoPin (p : PinCore) (k k0 : PinKind) (L : Q) : PinCore :=
  if k = k0 then p
  else { p with pos := some ((0 : Q) + (rulerPosOf k - rulerPosOf k0) * L) }

/-- Derived form of a ruler after the automatic canvas-extent solve. -/
def autoRuler (r : RulerCore) (k0 : PinKind) (L : Q) : RulerCore :=
  { len := r.len, pmax := autoPin r.pmax .pmax k0 L,
    pmid := autoPin r.pmid .pmid k0 L, pmin := autoPin r.pmin .pmin k0 L }

/-- Whether the anchor of a frame currently resolves to exactly the position
(x, y), by value equality on both coordinates. -/
def placementIs (w : World) (o : Owner) (anchor : String) (x y : Q) : Bool :=
  match framePlacement w o anchor with
  | .ok (some px, some py) => qeq px x && qeq py y
  | _ => false

/-- The ruler length produced by `calcInclusiveRlen` for a reference pin of
kind `k0` at position 0 and gathered extents `(lo, hi)`. -/
def autoLen (k0 : PinKind) (lo hi : Q) : Q :=
  qmax (qmax (if qeq (rulerPosOf k0) 1 then 0 else hi / (1 - rulerPosOf k0))
    (if qeq (rulerPosOf k0) 0 then 0 else (-lo) / rulerPosOf k0)) 0

/-- The length formula stated by the spec for automatic canvas sizing, over
exact rationals: `max(needed_high, needed_low, 0)` with
`needed_high = 0` at `rp = 1` else `hi / (1 - rp)` and `needed_low = 0` at
`rp = 0` else `(-lo) / rp`. -/
def specAutoLen (rp lo hi : ℚ) : ℚ :=
  max (max (if rp = 1 then 0 else hi / (1 - rp)) (if rp = 0 then 0 else (-lo) / rp)) 0

/-- Witness layout for the automatic canvas sizing: the canvas ruler is
fresh except for the origin (`bottomleft`) pin placed at 0, and the single
registered frame has its horizontal extent pins placed at -1 and 3. -/
def c3World : World :=
  { canvas := { hr := { len := none, pmax := .empty, pmid := .empty,
                        pmin := { pos := some 0, ref := none, offset := 0 } },
                vr := .empty },
    frames := [ { hr := { len := none,
                          pmax := { pos := some 3, ref := none, offset := 0 },
                          pmid := .empty,
                          pmin := { pos := some (-1), ref := none, offset := 0 } },
                  vr := .empty } ],
    names := ["m"],
    origin := "bottomleft" }

/-- The constraint skeleton of a layout: the same world with every pin
position cleared.  Two worlds with equal skeletons carry the same anchors,
offsets, explicit lengths, names and origin. -/
def clearAllPins (w : World) : World :=
  { w with canvas := clearFramePins w.canvas, frames := w.frames.map clearFramePins }

/-- Effect on the canvas frame of placing the origin anchor (pin kinds
`k1`/`k2` per axis) at the literal (0, 0). -/
def originSetF (c : FrameCore) (k1 k2 : PinKind) : FrameCore :=
  ⟨c.hr.setPin k1 ⟨some 0, none, 0⟩, c.vr.setPin k2 ⟨some 0, none, 0⟩⟩

/-- The nine anchor names as an explicit list (the key set of
`RectangularFrame.__anchors_getter`). -/
def allAnchors : List AnchorName :=
  [.bottomleft, .bottom, .bottomright, .left, .center, .right, .topleft, .top, .topright]

/-! Bridge lemmas relating the executable fraction type `Q` to `ℚ`. -/

theorem den_cast_ne (a : Q) : ((a.den : ℚ)) ≠ 0 := by
  exact_mod_cast Int.ne_of_gt a.dpos

theorem qeq_true_iff (a b : Q) : qeq a b = true ↔ toRat a = toRat b := by
  unfold qeq toRat
  rw [div_eq_div_iff (den_cast_ne a) (den_cast_ne b), beq_iff_eq]
  constructor
  · intro h
    exact_mod_cast congrArg (fun z : Int => (z : ℚ)) h
  · intro h
    exact_mod_cast h

theorem qle_true_iff (a b : Q) : qle a b = true ↔ toRat a ≤ toRat b := by
  unfold qle toRat
  rw [div_le_div_iff₀ (by exact_mod_cast a.dpos) (by exact_mod_cast b.dpos),
    decide_eq_true_eq]
  constructor
  · intro h; exact_mod_cast h
  · intro h; exact_mod_cast h

theorem qlt_true_iff (a b : Q) : qlt a b = true ↔ toRat a < toRat b := by
  unfold qlt toRat
  rw [div_lt_div_iff₀ (by exact_mod_cast a.dpos) (by exact_mod_cast b.dpos),
    decide_eq_true_eq]
  constructor
  · intro h; exact_mod_cast h
  · intro h; exact_mod_cast h

theorem toRat_add (a b : Q) : toRat (a + b) = toRat a + toRat b := by
  show toRat ⟨a.num * b.den + b.num * a.den, a.den * b.den, _⟩ = _
  unfold toRat
  rw [div_add_div _ _ (den_cast_ne a) (den_cast_ne b)]
  push_cast
  ring_nf

theorem toRat_sub (a b : Q) : toRat (a - b) = toRat a - toRat b := by
  show toRat ⟨a.num * b.den - b.num * a.den, a.den * b.den, _⟩ = _
  unfold toRat
  rw [div_sub_div _ _ (den_cast_ne a) (den_cast_ne b)]
  push_cast
  ring_nf

theorem toRat_mul (a b : Q) : toRat (a * b) = toRat a * toRat b := by
  show toRat ⟨a.num * b.num, a.den * b.den, _⟩ = _
  unfold toRat
  push_cast
  rw [div_mul_div_comm]

theorem toRat_neg (a : Q) : toRat (-a) = -toRat a := by
  show toRat ⟨-a.num, a.den, _⟩ = _
  unfold toRat
  push_cast
  ring

theorem toRat_ofNat (n : Nat) : toRat (OfNat.ofNat n : Q) = (n : ℚ) := by
  show toRat ⟨(n : Int), 1, _⟩ = _
  unfold toRat
  norm_num

theorem toRat_zero_iff (a : Q) : toRat a = 0 ↔ a.num = 0 := by
  unfold toRat
  rw [div_eq_zero_iff]
  constructor
  · intro h
    rcases h with h | h
    · exact_mod_cast h
    · exact absurd h (den_cast_ne a)
  · intro h
    exact Or.inl (by exact_mod_cast h)

theorem toRat_div (a b : Q) : toRat (a / b) = toRat a / toRat b := by
  have hda := den_cast_ne a
  have hdb := den_cast_ne b
  show toRat (Div.div a b) = _
  unfold Div.div instDivQ
  dsimp only
  split
  · rename_i h
    have hb : ((b.num : ℚ)) ≠ 0 := by exact_mod_cast Int.ne_of_gt h
    unfold toRat
    push_cast
    field_simp
  · split
    · rename_i h h'
      have hb : ((b.num : ℚ)) ≠ 0 := by exact_mod_cast Int.ne_of_lt h'
      unfold toRat
      push_cast
      field_simp
    · rename_i h h'
      have hb : b.num = 0 := le_antisymm (le_of_not_lt h) (le_of_not_lt h')
      have hzero : toRat b = 0 := (toRat_zero_iff b).mpr hb
      rw [hzero, div_zero]
      rw [show (0 : Q) = OfNat.ofNat 0 from rfl, toRat_ofNat]
      norm_num

theorem toRat_qmax (a b : Q) : toRat (qmax a b) = max (toRat a) (toRat b) := by
  unfold qmax
  split
  · rename_i h
    exact (max_eq_right ((qle_true_iff a b).mp h)).symm
  · rename_i h
    have : ¬ toRat a ≤ toRat b := fun hc => h ((qle_true_iff a b).mpr hc)
    exact (max_eq_left (le_of_not_le this)).symm

theorem toRat_qmin (a b : Q) : toRat (qmin a b) = min (toRat a) (toRat b) := by
  unfold qmin
  split
  · rename_i h
    exact (min_eq_left ((qle_true_iff a b).mp h)).symm
  · rename_i h
    have : ¬ toRat a ≤ toRat b := fun hc => h ((qle_true_iff a b).mpr hc)
    exact (min_eq_right (le_of_not_le this)).symm

/-- A true `placementIs` check means the anchor's placements carry exactly
the stated rational coordinates. -/
theorem placementIs_spec (w : World) (o : Owner) (anchor : String) (x y : Q)
    (h : placementIs w o anchor x y = true) :
    (framePlacement w o anchor).map (fun pr => (pr.1.map toRat, pr.2.map toRat))
      = .ok (some (toRat x), some (toRat y)) := by
  unfold placementIs at h
  split at h
  · rename_i px py heq
    rw [heq]
    rw [Bool.and_eq_true] at h
    simp only [Except.map, Option.map]
    rw [(qeq_true_iff _ _).mp h.1, (qeq_true_iff _ _).mp h.2]
  · simp at h

/-! Lemmas about the recursive solver's handling of the dependency path. -/

/-- On a normal return, `solveStep` hands back the dependency path exactly as
it received it. -/
theorem solveStep_ok_path (fuel : Nat) :
    ∀ (t : Node ⊕ List Node) (w : World) (path : List Node) (w' : World)
      (p' : List Node), solveStep fuel t w path = .ok (w', p') → p' = path := by
  induction fuel with
  | zero => intro t w path w' p' h; simp [solveStep] at h
  | succ n ih =>
    intro t w path w' p' h
    match t with
    | .inl node =>
      simp only [solveStep] at h
      split at h
      · simp at h
      · split at h
        · exact (congrArg Prod.snd (Except.ok.inj h)).symm
        · split at h
          · simp at h
          · rename_i w1 p1 heq
            have hp1 : p1 = path ++ [node] := ih _ _ _ _ _ heq
            split at h
            · have hsnd : p' = p1.dropLast := (congrArg Prod.snd (Except.ok.inj h)).symm
              simp [hsnd, hp1, List.dropLast_concat]
            · split at h
              · simp at h
              · have hsnd : p' = p1.dropLast := (congrArg Prod.snd (Except.ok.inj h)).symm
                simp [hsnd, hp1, List.dropLast_concat]
    | .inr [] =>
      simp only [solveStep] at h
      exact (congrArg Prod.snd (Except.ok.inj h)).symm
    | .inr (d :: ds) =>
      simp only [solveStep] at h
      split at h
      · simp at h
      · rename_i w1 p1 heq
        have hp1 : p1 = path := ih _ _ _ _ _ heq
        exact hp1 ▸ ih _ _ _ _ _ h

/-- On an error, the dependency path carried by the propagating exception
extends the path the call received: the nodes pushed during the call were
not popped. -/
theorem solveStep_error_path (fuel : Nat) :
    ∀ (t : Node ⊕ List Node) (w : World) (path : List Node) (e : Err)
      (p' : List Node), solveStep fuel t w path = .error (e, p') → path <+: p' := by
  induction fuel with
  | zero =>
    intro t w path e p' h
    simp only [solveStep] at h
    have : p' = path := congrArg Prod.snd (Except.error.inj h) |>.symm
    simp [this]
  | succ n ih =>
    intro t w path e p' h
    match t with
    | .inl node =>
      simp only [solveStep] at h
      split at h
      · have : p' = path := congrArg Prod.snd (Except.error.inj h) |>.symm
        simp [this]
      · split at h
        · simp at h
        · split at h
          · rename_i ep heq
            have hep : ep = (e, p') := Except.error.inj h
            subst hep
            exact (List.prefix_append path [node]).trans (ih _ _ _ _ _ heq)
          · rename_i w1 p1 heq
            have hp1 : p1 = path ++ [node] := solveStep_ok_path n _ _ _ _ _ heq
            split at h
            · simp at h
            · split at h
              · have hsnd : p' = p1 := (congrArg Prod.snd (Except.error.inj h)).symm
                exact hsnd ▸ hp1 ▸ List.prefix_append path [node]
              · simp at h
    | .inr [] => simp [solveStep] at h
    | .inr (d :: ds) =>
      simp only [solveStep] at h
      split at h
      · rename_i ep heq
        have hep : ep = (e, p') := Except.error.inj h
        subst hep
        exact ih _ _ _ _ _ heq
      · rename_i w1 p1 heq
        have hp1 : p1 = path := solveStep_ok_path n _ _ _ _ _ heq
        exact hp1 ▸ ih _ _ _ _ _ h

/-! Claim theorems. -/

/-- C1: in a layout with a single frame whose `bottomleft` anchor is directly
set to the absolute position (0, 0) and whose size is set to width 4 and
height 2.5, the recursive solve pass succeeds and anchor `topright` resolves
to (4.0, 2.5) while anchor `center` resolves to (2.0, 1.25). -/
theorem singleFrame_absolute_placement_solved :
    solveRec 30 (.frame (.frame 0)) c1World [] = .ok (c1Solved, []) ∧
    (framePlacement c1Solved (.frame 0) ("topright")).map
        (fun pr => (pr.1.map toRat, pr.2.map toRat)) = .ok (some 4, some (5/2)) ∧
    (framePlacement c1Solved (.frame 0) ("center")).map
        (fun pr => (pr.1.map toRat, pr.2.map toRat)) = .ok (some 2, some (5/4)) := by
  refine ⟨by decide, ?_, ?_⟩
  · have h := placementIs_spec c1Solved (.frame 0) ("topright") 4 (5/2) (by decide)
    rw [h, toRat_div, toRat_ofNat, toRat_ofNat, toRat_ofNat]
    norm_num
  · have h := placementIs_spec c1Solved (.frame 0) ("center") 2 (5/4) (by decide)
    rw [h, toRat_div, toRat_ofNat, toRat_ofNat, toRat_ofNat]
    norm_num

/-- C2 (amended): a call to `solve_placement_resursive` restores the
dependency path on a normal return; when an intermediate step raises, the
nodes pushed during the call are not popped, so the path at the error
extends (has as a prefix) the path the call received. -/
theorem solveRec_path_discipline (fuel : Nat) (node : Node) (w : World)
    (path : List Node) :
    (∀ w' p', solveRec fuel node w path = .ok (w', p') → p' = path) ∧
    (∀ e p', solveRec fuel node w path = .error (e, p') → path <+: p') :=
  ⟨fun _ p' h => solveStep_ok_path fuel _ _ _ _ _ h,
    fun _ p' h => solveStep_error_path fuel _ _ _ _ _ h⟩

/-- Witness for `solveRec_path_discipline`: a successful concrete solve of
`demoWorld`'s frame hands back the empty path it started from. -/
theorem solveRec_path_discipline_witness : demoRecPair.2 = ([] : List Node) :=
  (solveRec_path_discipline 30 (.frame (.frame 0)) c1World []).1
    demoRecPair.1 demoRecPair.2 (by decide)

/-- C2 counterexample: on the two-frame circular layout the recursive solve
raises, and the dependency path it leaves behind is not the empty path the
call started from — the pushed nodes were not popped on the exception
path. -/
theorem solveRec_error_leaves_path_modified :
    solveRec 30 (.frame (.frame 0)) cycWorld [] =
      .error (.circularDependency
        [.frame (.frame 0), .ruler (.frame 0) .hor, .pin ⟨.frame 0, .hor, .pmin⟩,
          .pin ⟨.frame 1, .hor, .pmin⟩, .pin ⟨.frame 0, .hor, .pmin⟩],
        [.frame (.frame 0), .ruler (.frame 0) .hor, .pin ⟨.frame 0, .hor, .pmin⟩,
          .pin ⟨.frame 1, .hor, .pmin⟩]) ∧
    ([.frame (.frame 0), .ruler (.frame 0) .hor, .pin ⟨.frame 0, .hor, .pmin⟩,
      .pin ⟨.frame 1, .hor, .pmin⟩] : List Node) ≠ ([] : List Node) :=
  ⟨by decide, by simp⟩

/-- Every anchor name is listed in `allAnchors`. -/
theorem anchor_mem (a : AnchorName) : a ∈ allAnchors := by
  cases a <;> decide

set_option maxHeartbeats 8000000 in
/-- Anchor-table slice: every mutual-anchor layout whose first anchor is
`bottomleft` passes the circular-dependency check. -/
theorem c4Table_bottomleft :
    (allAnchors.all fun b1 => allAnchors.all fun b2 => allAnchors.all fun a2 =>
      c4Check .bottomleft b1 b2 a2) = true := by
  decide

set_option maxHeartbeats 8000000 in
/-- Anchor-table slice: every mutual-anchor layout whose first anchor is
`bottom` passes the circular-dependency check. -/
theorem c4Table_bottom :
    (allAnchors.all fun b1 => allAnchors.all fun b2 => allAnchors.all fun a2 =>
      c4Check .bottom b1 b2 a2) = true := by
  decide

set_option maxHeartbeats 8000000 in
/-- Anchor-table slice: every mutual-anchor layout whose first anchor is
`bottomright` passes the circular-dependency check. -/
theorem c4Table_bottomright :
    (allAnchors.all fun b1 => allAnchors.all fun b2 => allAnchors.all fun a2 =>
      c4Check .bottomright b1 b2 a2) = true := by
  decide

set_option maxHeartbeats 8000000 in
/-- Anchor-table slice: every mutual-anchor layout whose first anchor is
`left` passes the circular-dependency check. -/
theorem c4Table_left :
    (allAnchors.all fun b1 => allAnchors.all fun b2 => allAnchors.all fun a2 =>
      c4Check .left b1 b2 a2) = true := by
  decide

set_option maxHeartbeats 8000000 in
/-- Anchor-table slice: every mutual-anchor layout whose first anchor is
`center` passes the circular-dependency check. -/
theorem c4Table_center :
    (allAnchors.all fun b1 => allAnchors.all fun b2 => allAnchors.all fun a2 =>
      c4Check .center b1 b2 a2) = true := by
  decide

set_option maxHeartbeats 8000000 in
/-- Anchor-table slice: every mutual-anchor layout whose first anchor is
`right` passes the circular-dependency check. -/
theorem c4Table_right :
    (allAnchors.all fun b1 => allAnchors.all fun b2 => allAnchors.all fun a2 =>
      c4Check .right b1 b2 a2) = true := by
  decide

set_option maxHeartbeats 8000000 in
/-- Anchor-table slice: every mutual-anchor layout whose first anchor is
`topleft` passes the circular-dependency check. -/
theorem c4Table_topleft :
    (allAnchors.all fun b1 => allAnchors.all fun b2 => allAnchors.all fun a2 =>
      c4Check .topleft b1 b2 a2) = true := by
  decide

set_option maxHeartbeats 8000000 in
/-- Anchor-table slice: every mutual-anchor layout whose first anchor is
`top` passes the circular-dependency check. -/
theorem c4Table_top :
    (allAnchors.all fun b1 => allAnchors.all fun b2 => allAnchors.all fun a2 =>
      c4Check .top b1 b2 a2) = true := by
  decide

set_option maxHeartbeats 8000000 in
/-- Anchor-table slice: every mutual-anchor layout whose first anchor is
`topright` passes the circular-dependency check. -/
theorem c4Table_topright :
    (allAnchors.all fun b1 => allAnchors.all fun b2 => allAnchors.all fun a2 =>
      c4Check .topright b1 b2 a2) = true := by
  decide

/-- All 9^4 anchor combinations of the minimal mutual-anchor layout pass the
circular-dependency check (assembled from the nine table slices). -/
theorem c4Check_all : ∀ a1 b1 b2 a2 : AnchorName, c4Check a1 b1 b2 a2 = true := by
  intro a1 b1 b2 a2
  have h : (allAnchors.all fun b1 => allAnchors.all fun b2 =>
      allAnchors.all fun a2 => c4Check a1 b1 b2 a2) = true := by
    cases a1
    · exact c4Table_bottomleft
    · exact c4Table_bottom
    · exact c4Table_bottomright
    · exact c4Table_left
    · exact c4Table_center
    · exact c4Table_right
    · exact c4Table_topleft
    · exact c4Table_top
    · exact c4Table_topright
  rw [List.all_eq_true] at h
  have h1 := h b1 (anchor_mem b1)
  rw [List.all_eq_true] at h1
  have h2 := h1 b2 (anchor_mem b2)
  rw [List.all_eq_true] at h2
  exact h2 a2 (anchor_mem a2)

/-- C4 (amended): for two frames connected only by one anchor link each way
(any anchors, zero offsets) and otherwise unconstrained, the recursive solve
raises a circular-dependency error; the reported cycle is the active
resolution path extended with the reoffending node, it contains nodes of
both frames, and its message joins the nodes' global names. -/
theorem minimalMutualAnchors_circular (a1 b1 b2 a2 : AnchorName) :
    ∃ cyc p, solveRec 30 (.frame (.frame 0)) (minCycleWorld a1 b1 b2 a2 0 0 0 0) [] =
        .error (.circularDependency cyc, p) ∧
      cyc.dropLast = p ∧
      cyc.any (nodeOwnedBy (.frame 0)) = true ∧
      cyc.any (nodeOwnedBy (.frame 1)) = true ∧
      errMessage (minCycleWorld a1 b1 b2 a2 0 0 0 0).names (.circularDependency cyc) =
        "circular dependency found: " ++ String.intercalate ("=>")
          (cyc.map (nodeGlobalName (minCycleWorld a1 b1 b2 a2 0 0 0 0).names)) := by
  have h := c4Check_all a1 b1 b2 a2
  unfold c4Check at h
  split at h
  · rename_i cyc p heq
    rw [Bool.and_eq_true, Bool.and_eq_true] at h
    exact ⟨cyc, p, heq, eq_of_beq h.1.1, h.1.2, h.2, rfl⟩
  · exact absurd h (by simp)

/-- C4 counterexample: a constraint graph in which frames A and B anchor
each other and neither is independently placeable, but where a third frame C
lets one pin of the cycle resolve early: the recursive solve (in registry
order C, then A) raises `PlacementUnsolvableError`, not
`CircularDependencyError`. -/
theorem anchorsCycle_raises_unsolvable_not_circular :
    solveRec 30 (.frame (.frame 0)) c4CounterWorld [] = .ok (c4AfterC, []) ∧
    solveRec 30 (.frame (.frame 1)) c4AfterC [] = .error (.placementUnsolvable,
      [.frame (.frame 1), .ruler (.frame 1) .hor, .pin ⟨.frame 1, .hor, .pmin⟩,
        .pin ⟨.frame 2, .hor, .pmax⟩, .ruler (.frame 2) .hor]) ∧
    (∀ cyc p, solveRec 30 (.frame (.frame 1)) c4AfterC [] ≠
      .error (.circularDependency cyc, p)) := by
  refine ⟨by decide, by decide, ?_⟩
  intro cyc p h
  rw [(by decide : solveRec 30 (.frame (.frame 1)) c4AfterC [] = .error (.placementUnsolvable,
    [.frame (.frame 1), .ruler (.frame 1) .hor, .pin ⟨.frame 1, .hor, .pmin⟩,
      .pin ⟨.frame 2, .hor, .pmax⟩, .ruler (.frame 2) .hor]))] at h
  simp at h

/-- C5: `LinearRuler.is_placeable` is true exactly when n + e >= 2, where n
counts the pins that are already placed or reference-constrained and e is 1
precisely when an explicit ruler length is set. -/
theorem isPlaceable_iff_two_infos (r : RulerCore) :
    r.isPlaceableB = true ↔
      2 ≤ (((if (r.pmax.pos.isSome || r.pmax.ref.isSome) then 1 else 0) +
            (if (r.pmid.pos.isSome || r.pmid.ref.isSome) then 1 else 0) +
            (if (r.pmin.pos.isSome || r.pmin.ref.isSome) then 1 else 0) : Nat) +
        (if r.len.isSome then 1 else 0)) := by
  simp only [RulerCore.isPlaceableB, RulerCore.anchorableKinds, pinKinds, RulerCore.pin]
  cases h1 : r.pmax.pos.isSome || r.pmax.ref.isSome <;>
    cases h2 : r.pmid.pos.isSome || r.pmid.ref.isSome <;>
      cases h3 : r.pmin.pos.isSome || r.pmin.ref.isSome <;>
        cases h4 : r.len.isSome <;>
          simp [h1, h2, h3, h4, List.filter]

/-- C7 (code bug): `Frame2DBase.set_placement`'s type guard evaluates the
undefined name `offsets` whenever `position` is not a tuple, so a 2-element
list — accepted by the guard's own error message and by the spec — raises
`NameError` instead of placing the pins, and any non-tuple non-list value
also raises `NameError` instead of the documented `TypeError`.  A 2-element
tuple works as specified: both pins' references are cleared and their
positions set; a tuple of the wrong length raises `TypeError`. -/
theorem setPlacement_list_raises_nameError :
    setPlacementFrame (freshWorld ["f"]) (.frame 0) ("bottomleft") (.lst [1, 2])
        = .error .nameError ∧
    setPlacementFrame (freshWorld ["f"]) (.frame 0) ("bottomleft") .other
        = .error .nameError ∧
    (∃ w', setPlacementFrame (freshWorld ["f"]) (.frame 0) ("bottomleft") (.tup [1, 2])
        = .ok w' ∧
      w'.pinC ⟨.frame 0, .hor, .pmin⟩ = ⟨some 1, none, 0⟩ ∧
      w'.pinC ⟨.frame 0, .ver, .pmin⟩ = ⟨some 2, none, 0⟩) ∧
    setPlacementFrame (freshWorld ["f"]) (.frame 0) ("bottomleft") (.tup [1, 2, 3])
        = .error .typeError ∧
    Err.nameError.isPlacementFamily = false :=
  ⟨rfl, rfl, ⟨_, rfl, by decide, by decide⟩, rfl, rfl⟩

/-- C8: `LayoutCreator.add_frame` fails exactly when the requested name
duplicates a registered name or equals the reserved registry token "figure";
otherwise the new frame is appended to the registry and its global name
shows the canvas frame as its parent. -/
theorem addFrame_spec (w : World) (name : String)
    (hlen : w.names.length = w.frames.length) :
    ((∃ e, addFrame w name = .error e) ↔ (name ∈ w.names ∨ name = ("figure"))) ∧
    (∀ w' i, addFrame w name = .ok (w', i) →
      w'.names = w.names ++ [name] ∧
      w'.frames = w.frames ++ [FrameCore.empty] ∧
      i = w.frames.length ∧
      ownerGlobalName w'.names (.frame i) = "canvas/" ++ name ∧
      w'.canvas = w.canvas ∧ w'.origin = w.origin) := by
  unfold addFrame
  split_ifs with hmem hfig
  · exact ⟨by simp [hmem], fun w' i h => by simp at h⟩
  · exact ⟨by simp [hfig], fun w' i h => by simp at h⟩
  · refine ⟨by simp [hmem, hfig], fun w' i h => ?_⟩
    rw [Except.ok.injEq, Prod.mk.injEq] at h
    obtain ⟨hw, hi⟩ := h
    subst hw
    subst hi
    refine ⟨rfl, rfl, rfl, ?_, rfl, rfl⟩
    unfold ownerGlobalName
    dsimp only
    rw [← hlen]
    simp [List.getD_eq_getElem?_getD]

/-- Witness for `addFrame_spec` at a concrete layout. -/
theorem addFrame_spec_witness :
    ((∃ e, addFrame (freshWorld ["a"]) ("b") = .error e) ↔
      (("b") ∈ (freshWorld ["a"]).names ∨ ("b") = ("figure"))) :=
  (addFrame_spec (freshWorld ["a"]) ("b") rfl).1

/-- C10: when `is_placeable` holds only through an explicit length plus
reference-constrained pins and no pin is placed, the local
`LinearRuler.solve_placement` raises Python's plain `ValueError` (from
unpacking the empty set of placed pins) — outside the placement-error
family; the dependency-unplaced guard is dead because the ruler length
resolves to the explicit value (and `calc_ruler_length` would return 0, not
none, with fewer than two placed pins). -/
theorem solveLocal_unpack_valueError (r : RulerCore) (L : Q)
    (hlen : r.len = some L)
    (h1 : r.pmax.pos = none) (h2 : r.pmid.pos = none) (h3 : r.pmin.pos = none)
    (href : r.anchorableKinds .placeable ≠ []) :
    r.solveLocal = .error .valueError ∧
    Err.valueError.isPlacementFamily = false ∧
    r.calcLen = 0 ∧
    r.lengthOpt true = some L ∧
    r.isPlaceableB = true := by
  have hplaced : r.anchorableKinds .placed = [] := by
    simp [RulerCore.anchorableKinds, pinKinds, RulerCore.pin, List.filter, h1, h2, h3]
  have hanch : r.anchorableKinds .both = r.anchorableKinds .placeable := by
    simp [RulerCore.anchorableKinds, pinKinds, RulerCore.pin, List.filter, h1, h2, h3]
  have hone : 1 ≤ (r.anchorableKinds .placeable).length :=
    List.length_pos.mpr href
  have hplaceable : r.isPlaceableB = true := by
    unfold RulerCore.isPlaceableB
    rw [hanch, hlen]
    simp
    omega
  refine ⟨?_, rfl, ?_, ?_, hplaceable⟩
  · unfold RulerCore.solveLocal
    rw [hplaceable]
    simp only [RulerCore.lengthOpt, hlen, hplaced, Bool.not_true]
    rfl
  · unfold RulerCore.calcLen
    rw [hplaced]
  · unfold RulerCore.lengthOpt
    rw [hlen]

/-- Witness for `solveLocal_unpack_valueError` at the concrete ruler
`c10Ruler`. -/
theorem solveLocal_unpack_valueError_witness :
    c10Ruler.solveLocal = .error .valueError :=
  (solveLocal_unpack_valueError c10Ruler 3 rfl rfl rfl rfl (by decide)).1

theorem rulerNotPlaced (r : RulerCore) (k0 : PinKind)
    (hoth : ∀ k, k ≠ k0 → (r.pin k).pos = none) :
    r.isPlacedB = false := by
  cases k0 with
  | pmax =>
    have h2 : r.pmid.pos = none := hoth .pmid (by decide)
    simp [RulerCore.isPlacedB, pinKinds, RulerCore.pin, h2]
  | pmid =>
    have h2 : r.pmax.pos = none := hoth .pmax (by decide)
    simp [RulerCore.isPlacedB, pinKinds, RulerCore.pin, h2]
  | pmin =>
    have h2 : r.pmax.pos = none := hoth .pmax (by decide)
    simp [RulerCore.isPlacedB, pinKinds, RulerCore.pin, h2]

theorem rulerNotPlaceable (r : RulerCore) (k0 : PinKind)
    (hlen : r.len = none) (hrefs : ∀ k, (r.pin k).ref = none)
    (hoth : ∀ k, k ≠ k0 → (r.pin k).pos = none) :
    r.isPlaceableB = false := by
  have hr1 : r.pmax.ref = none := hrefs .pmax
  have hr2 : r.pmid.ref = none := hrefs .pmid
  have hr3 : r.pmin.ref = none := hrefs .pmin
  cases k0 with
  | pmax =>
    have h2 : r.pmid.pos = none := hoth .pmid (by decide)
    have h3 : r.pmin.pos = none := hoth .pmin (by decide)
    cases hp : r.pmax.pos.isSome <;>
      simp [RulerCore.isPlaceableB, RulerCore.anchorableKinds, pinKinds,
        RulerCore.pin, List.filter, hr1, hr2, hr3, h2, h3, hp, hlen]
  | pmid =>
    have h2 : r.pmax.pos = none := hoth .pmax (by decide)
    have h3 : r.pmin.pos = none := hoth .pmin (by decide)
    cases hp : r.pmid.pos.isSome <;>
      simp [RulerCore.isPlaceableB, RulerCore.anchorableKinds, pinKinds,
        RulerCore.pin, List.filter, hr1, hr2, hr3, h2, h3, hp, hlen]
  | pmin =>
    have h2 : r.pmax.pos = none := hoth .pmax (by decide)
    have h3 : r.pmid.pos = none := hoth .pmid (by decide)
    cases hp : r.pmin.pos.isSome <;>
      simp [RulerCore.isPlaceableB, RulerCore.anchorableKinds, pinKinds,
        RulerCore.pin, List.filter, hr1, hr2, hr3, h2, h3, hp, hlen]

theorem rulerSolveLocalAuto (r : RulerCore) (k0 : PinKind) (L : Q)
    (hlen : r.len = some L) (hrefs : ∀ k, (r.pin k).ref = none)
    (h0 : (r.pin k0).pos = some 0)
    (hoth : ∀ k, k ≠ k0 → (r.pin k).pos = none) :
    r.solveLocal = .ok (autoRuler r k0 L) := by
  have hr1 : r.pmax.ref = none := hrefs .pmax
  have hr2 : r.pmid.ref = none := hrefs .pmid
  have hr3 : r.pmin.ref = none := hrefs .pmin
  cases k0 with
  | pmax =>
    have h0' : r.pmax.pos = some 0 := h0
    have h2 : r.pmid.pos = none := hoth .pmid (by decide)
    have h3 : r.pmin.pos = none := hoth .pmin (by decide)
    simp [RulerCore.solveLocal, RulerCore.isPlaceableB, RulerCore.anchorableKinds,
      pinKinds, RulerCore.pin, List.filter, h0', h2, h3, hr1, hr2, hr3, hlen,
      RulerCore.lengthOpt, posValD, List.foldl, placePinStep, RulerCore.setPin,
      autoRuler, autoPin, rulerPosOf]
  | pmid =>
    have h0' : r.pmid.pos = some 0 := h0
    have h2 : r.pmax.pos = none := hoth .pmax (by decide)
    have h3 : r.pmin.pos = none := hoth .pmin (by decide)
    simp [RulerCore.solveLocal, RulerCore.isPlaceableB, RulerCore.anchorableKinds,
      pinKinds, RulerCore.pin, List.filter, h0', h2, h3, hr1, hr2, hr3, hlen,
      RulerCore.lengthOpt, posValD, List.foldl, placePinStep, RulerCore.setPin,
      autoRuler, autoPin, rulerPosOf]
  | pmin =>
    have h0' : r.pmin.pos = some 0 := h0
    have h2 : r.pmax.pos = none := hoth .pmax (by decide)
    have h3 : r.pmid.pos = none := hoth .pmid (by decide)
    simp [RulerCore.solveLocal, RulerCore.isPlaceableB, RulerCore.anchorableKinds,
      pinKinds, RulerCore.pin, List.filter, h0', h2, h3, hr1, hr2, hr3, hlen,
      RulerCore.lengthOpt, posValD, List.foldl, placePinStep, RulerCore.setPin,
      autoRuler, autoPin, rulerPosOf]

theorem pin_len_irrel (r : RulerCore) (l : Option Q) (k : PinKind) :
    ({ r with len := l } : RulerCore).pin k = r.pin k := by
  cases k <;> rfl

theorem solveRecRulerNoDeps (fuel : Nat) (w : World) (o : Owner) (ax : Axis2D)
    (r' : RulerCore)
    (hdeps : ((w.frameOf o).ruler ax).anchorableKinds .placeable = [])
    (hnp : ((w.frameOf o).ruler ax).isPlacedB = false)
    (hsolve : ((w.frameOf o).ruler ax).solveLocal = .ok r') :
    solveRec (fuel + 2) (.ruler o ax) w [] =
      .ok (w.setFrame o ((w.frameOf o).setRuler ax r'), []) := by
  show solveStep (fuel + 2) (.inl (.ruler o ax)) w [] = _
  simp [solveStep, World.isPlacedNode, hnp, World.depsOf, hdeps,
    World.solveNodeLocal, hsolve]

theorem rulerVerifyValues (w : World) (o : Owner) (ax : Axis2D)
    (vmax vmid vmin : Q)
    (hrefs : ∀ k, (((w.frameOf o).ruler ax).pin k).ref = none)
    (hvmax : ((w.frameOf o).ruler ax).pmax.pos = some vmax)
    (hvmid : ((w.frameOf o).ruler ax).pmid.pos = some vmid)
    (hvmin : ((w.frameOf o).ruler ax).pmin.pos = some vmin)
    (hmid : toRat vmax + toRat vmin = toRat vmid * 2)
    (hord : toRat vmin ≤ toRat vmax) :
    rulerVerify w o ax = .ok () := by
  have hr1 : ((w.frameOf o).ruler ax).pmax.ref = none := hrefs .pmax
  have hr2 : ((w.frameOf o).ruler ax).pmid.ref = none := hrefs .pmid
  have hr3 : ((w.frameOf o).ruler ax).pmin.ref = none := hrefs .pmin
  have e1 : qeq (vmax + vmin) (vmid * 2) = true := by
    rw [qeq_true_iff, toRat_add, toRat_mul]
    rw [show toRat (2 : Q) = ((2 : Nat) : ℚ) from toRat_ofNat 2]
    push_cast
    linarith
  have e2 : qlt vmax vmin = false := by
    rw [Bool.eq_false_iff]
    intro hc
    exact absurd ((qlt_true_iff _ _).mp hc) (not_lt.mpr hord)
  unfold rulerVerify pinVerify
  simp [World.pinC, RulerCore.pin, hr1, hr2, hr3, hvmax, hvmid, hvmin, e1, e2]

theorem rulerVerifyAutoW (w : World) (o : Owner) (ax : Axis2D) (r : RulerCore)
    (k0 : PinKind) (L : Q)
    (hw : (w.frameOf o).ruler ax = { autoRuler r k0 L with len := none })
    (hrefs : ∀ k, (r.pin k).ref = none)
    (h0 : (r.pin k0).pos = some 0)
    (hL : (0 : ℚ) ≤ toRat L) :
    rulerVerify w o ax = .ok () := by
  have hr1 : r.pmax.ref = none := hrefs .pmax
  have hr2 : r.pmid.ref = none := hrefs .pmid
  have hr3 : r.pmin.ref = none := hrefs .pmin
  have htr : ∀ x y : Q, toRat (x - y) = toRat x - toRat y := toRat_sub
  cases k0 with
  | pmax =>
    have h0' : r.pmax.pos = some 0 := h0
    refine rulerVerifyValues w o ax 0 ((0 : Q) + (rulerPosOf .pmid - rulerPosOf .pmax) * L)
      ((0 : Q) + (rulerPosOf .pmin - rulerPosOf .pmax) * L) ?_ ?_ ?_ ?_ ?_ ?_
    · intro k
      rw [hw]
      cases k <;> simp [autoRuler, autoPin, RulerCore.pin, hr1, hr2, hr3]
    · rw [hw]; simp [autoRuler, autoPin, h0']
    · rw [hw]; simp [autoRuler, autoPin]
    · rw [hw]; simp [autoRuler, autoPin]
    · simp only [toRat_add, toRat_sub, toRat_mul, rulerPosOf, toRat_div]
      rw [show toRat (0 : Q) = ((0 : Nat) : ℚ) from toRat_ofNat 0,
        show toRat (1 : Q) = ((1 : Nat) : ℚ) from toRat_ofNat 1,
        show toRat (2 : Q) = ((2 : Nat) : ℚ) from toRat_ofNat 2]
      push_cast
      ring
    · simp only [toRat_add, toRat_sub, toRat_mul, rulerPosOf, toRat_div]
      rw [show toRat (0 : Q) = ((0 : Nat) : ℚ) from toRat_ofNat 0,
        show toRat (1 : Q) = ((1 : Nat) : ℚ) from toRat_ofNat 1]
      push_cast
      nlinarith [hL]
  | pmid =>
    have h0' : r.pmid.pos = some 0 := h0
    refine rulerVerifyValues w o ax ((0 : Q) + (rulerPosOf .pmax - rulerPosOf .pmid) * L) 0
      ((0 : Q) + (rulerPosOf .pmin - rulerPosOf .pmid) * L) ?_ ?_ ?_ ?_ ?_ ?_
    · intro k
      rw [hw]
      cases k <;> simp [autoRuler, autoPin, RulerCore.pin, hr1, hr2, hr3]
    · rw [hw]; simp [autoRuler, autoPin]
    · rw [hw]; simp [autoRuler, autoPin, h0']
    · rw [hw]; simp [autoRuler, autoPin]
    · simp only [toRat_add, toRat_sub, toRat_mul, rulerPosOf, toRat_div]
      rw [show toRat (0 : Q) = ((0 : Nat) : ℚ) from toRat_ofNat 0,
        show toRat (1 : Q) = ((1 : Nat) : ℚ) from toRat_ofNat 1,
        show toRat (2 : Q) = ((2 : Nat) : ℚ) from toRat_ofNat 2]
      push_cast
      ring
    · simp only [toRat_add, toRat_sub, toRat_mul, rulerPosOf, toRat_div]
      rw [show toRat (0 : Q) = ((0 : Nat) : ℚ) from toRat_ofNat 0,
        show toRat (1 : Q) = ((1 : Nat) : ℚ) from toRat_ofNat 1,
        show toRat (2 : Q) = ((2 : Nat) : ℚ) from toRat_ofNat 2]
      push_cast
      nlinarith [hL]
  | pmin =>
    have h0' : r.pmin.pos = some 0 := h0
    refine rulerVerifyValues w o ax ((0 : Q) + (rulerPosOf .pmax - rulerPosOf .pmin) * L)
      ((0 : Q) + (rulerPosOf .pmid - rulerPosOf .pmin) * L) 0 ?_ ?_ ?_ ?_ ?_ ?_
    · intro k
      rw [hw]
      cases k <;> simp [autoRuler, autoPin, RulerCore.pin, hr1, hr2, hr3]
    · rw [hw]; simp [autoRuler, autoPin]
    · rw [hw]; simp [autoRuler, autoPin]
    · rw [hw]; simp [autoRuler, autoPin, h0']
    · simp only [toRat_add, toRat_sub, toRat_mul, rulerPosOf, toRat_div]
      rw [show toRat (0 : Q) = ((0 : Nat) : ℚ) from toRat_ofNat 0,
        show toRat (1 : Q) = ((1 : Nat) : ℚ) from toRat_ofNat 1,
        show toRat (2 : Q) = ((2 : Nat) : ℚ) from toRat_ofNat 2]
      push_cast
      ring
    · simp only [toRat_add, toRat_sub, toRat_mul, rulerPosOf, toRat_div]
      rw [show toRat (0 : Q) = ((0 : Nat) : ℚ) from toRat_ofNat 0,
        show toRat (1 : Q) = ((1 : Nat) : ℚ) from toRat_ofNat 1]
      push_cast
      nlinarith [hL]

theorem ruler_setCanvasLen (w : World) (ax : Axis2D) (l : Option Q) :
    ((setCanvasRulerLen w ax l).frameOf .canvas).ruler ax
      = { (w.frameOf .canvas).ruler ax with len := l } := by
  cases ax <;> rfl

/-- Closed form of `solveCanvasRuler` in the automatic-sizing branch: with
the canvas ruler fresh except the origin pin `k0` placed at 0 and gathered
extents `(lo, hi)`, the result ruler is `autoRuler` at length
`autoLen k0 lo hi` with the explicit length cleared, and the warning is
emitted exactly when that length is 0. -/
theorem solveCanvasAuto (fuel : Nat) (w : World) (ax : Axis2D) (a : AnchorName)
    (k0 : PinKind) (lo hi : Q)
    (hO : anchorOfString w.origin = some a)
    (hk : axisKind ax a = k0)
    (hlen : ((w.frameOf .canvas).ruler ax).len = none)
    (hrefs : ∀ k, (((w.frameOf .canvas).ruler ax).pin k).ref = none)
    (h0 : (((w.frameOf .canvas).ruler ax).pin k0).pos = some 0)
    (hoth : ∀ k, k ≠ k0 → (((w.frameOf .canvas).ruler ax).pin k).pos = none)
    (hext : gatherExtents w ax = .ok (lo, hi)) :
    solveCanvasRuler (fuel + 2) w ax =
      .ok (w.setFrame .canvas ((w.frameOf .canvas).setRuler ax
          { autoRuler ((w.frameOf .canvas).ruler ax) k0 (autoLen k0 lo hi)
            with len := none }),
        if qeq (autoLen k0 lo hi) 0 then [autoSizeWarning ax] else []) := by
  cases ax with
  | hor =>
    have hk' : (anchorHV a).1 = k0 := hk
    have hnp := rulerNotPlaced ((w.frameOf .canvas).ruler .hor) k0 hoth
    have hnpl := rulerNotPlaceable ((w.frameOf .canvas).ruler .hor) k0 hlen hrefs hoth
    unfold solveCanvasRuler
    dsimp only
    rw [hnp, hnpl]
    simp only [Bool.false_eq_true, if_false, resolveAnchor, hO, anchorPinIds, hk', hext,
      calcInclusiveRlen, World.pinC, h0]
    simp only [show qeq (0 : Q) 0 = true from rfl, not_true, if_false]
    rw [show (qmax (qmax (if qeq (rulerPosOf k0) 1 then 0 else hi / (1 - rulerPosOf k0))
      (if qeq (rulerPosOf k0) 0 then 0 else (-lo) / rulerPosOf k0)) 0 : Q)
      = autoLen k0 lo hi from rfl]
    have hrefs1 : ∀ k, ((((setCanvasRulerLen w Axis2D.hor (some (autoLen k0 lo hi))).frameOf
        Owner.canvas).ruler Axis2D.hor).pin k).ref = none := by
      intro k
      rw [ruler_setCanvasLen, pin_len_irrel]
      exact hrefs k
    have h01 : ((((setCanvasRulerLen w Axis2D.hor (some (autoLen k0 lo hi))).frameOf
        Owner.canvas).ruler Axis2D.hor).pin k0).pos = some 0 := by
      rw [ruler_setCanvasLen, pin_len_irrel]
      exact h0
    have hoth1 : ∀ k, k ≠ k0 → ((((setCanvasRulerLen w Axis2D.hor (some (autoLen k0 lo hi))).frameOf
        Owner.canvas).ruler Axis2D.hor).pin k).pos = none := by
      intro k hkk
      rw [ruler_setCanvasLen, pin_len_irrel]
      exact hoth k hkk
    have hnp1 := rulerNotPlaced (((setCanvasRulerLen w Axis2D.hor (some (autoLen k0 lo hi))).frameOf
        Owner.canvas).ruler Axis2D.hor) k0 hoth1
    have hdeps1 : (((setCanvasRulerLen w Axis2D.hor (some (autoLen k0 lo hi))).frameOf
        Owner.canvas).ruler Axis2D.hor).anchorableKinds .placeable = [] := by
      simp [RulerCore.anchorableKinds, pinKinds, List.filter,
        hrefs1 .pmax, hrefs1 .pmid, hrefs1 .pmin]
    have hlen1 : (((setCanvasRulerLen w Axis2D.hor (some (autoLen k0 lo hi))).frameOf
        Owner.canvas).ruler Axis2D.hor).len = some (autoLen k0 lo hi) := rfl
    have hsolve1 := rulerSolveLocalAuto (((setCanvasRulerLen w Axis2D.hor
        (some (autoLen k0 lo hi))).frameOf Owner.canvas).ruler Axis2D.hor)
      k0 (autoLen k0 lo hi) hlen1 hrefs1 h01 hoth1
    rw [solveRecRulerNoDeps fuel (setCanvasRulerLen w Axis2D.hor (some (autoLen k0 lo hi)))
      Owner.canvas Axis2D.hor
      (autoRuler (((setCanvasRulerLen w Axis2D.hor (some (autoLen k0 lo hi))).frameOf
        Owner.canvas).ruler Axis2D.hor) k0 (autoLen k0 lo hi)) hdeps1 hnp1 hsolve1]
    dsimp only
    have hL' : (0 : ℚ) ≤ toRat (autoLen k0 lo hi) := by
      unfold autoLen
      rw [toRat_qmax]
      rw [show toRat (0 : Q) = ((0 : Nat) : ℚ) from toRat_ofNat 0]
      push_cast
      exact le_max_right _ 0
    rw [rulerVerifyAutoW (setCanvasRulerLen
        ((setCanvasRulerLen w Axis2D.hor (some (autoLen k0 lo hi))).setFrame Owner.canvas
          (((setCanvasRulerLen w Axis2D.hor (some (autoLen k0 lo hi))).frameOf
            Owner.canvas).setRuler Axis2D.hor
            (autoRuler (((setCanvasRulerLen w Axis2D.hor (some (autoLen k0 lo hi))).frameOf
              Owner.canvas).ruler Axis2D.hor) k0 (autoLen k0 lo hi))))
        Axis2D.hor none) Owner.canvas Axis2D.hor
      (((setCanvasRulerLen w Axis2D.hor (some (autoLen k0 lo hi))).frameOf
        Owner.canvas).ruler Axis2D.hor) k0 (autoLen k0 lo hi) rfl hrefs1 h01 hL']
    rfl
  | ver =>
    have hk' : (anchorHV a).2 = k0 := hk
    have hnp := rulerNotPlaced ((w.frameOf .canvas).ruler .ver) k0 hoth
    have hnpl := rulerNotPlaceable ((w.frameOf .canvas).ruler .ver) k0 hlen hrefs hoth
    unfold solveCanvasRuler
    dsimp only
    rw [hnp, hnpl]
    simp only [Bool.false_eq_true, if_false, resolveAnchor, hO, anchorPinIds, hk', hext,
      calcInclusiveRlen, World.pinC, h0]
    simp only [show qeq (0 : Q) 0 = true from rfl, not_true, if_false]
    rw [show (qmax (qmax (if qeq (rulerPosOf k0) 1 then 0 else hi / (1 - rulerPosOf k0))
      (if qeq (rulerPosOf k0) 0 then 0 else (-lo) / rulerPosOf k0)) 0 : Q)
      = autoLen k0 lo hi from rfl]
    have hrefs1 : ∀ k, ((((setCanvasRulerLen w Axis2D.ver (some (autoLen k0 lo hi))).frameOf
        Owner.canvas).ruler Axis2D.ver).pin k).ref = none := by
      intro k
      rw [ruler_setCanvasLen, pin_len_irrel]
      exact hrefs k
    have h01 : ((((setCanvasRulerLen w Axis2D.ver (some (autoLen k0 lo hi))).frameOf
        Owner.canvas).ruler Axis2D.ver).pin k0).pos = some 0 := by
      rw [ruler_setCanvasLen, pin_len_irrel]
      exact h0
    have hoth1 : ∀ k, k ≠ k0 → ((((setCanvasRulerLen w Axis2D.ver (some (autoLen k0 lo hi))).frameOf
        Owner.canvas).ruler Axis2D.ver).pin k).pos = none := by
      intro k hkk
      rw [ruler_setCanvasLen, pin_len_irrel]
      exact hoth k hkk
    have hnp1 := rulerNotPlaced (((setCanvasRulerLen w Axis2D.ver (some (autoLen k0 lo hi))).frameOf
        Owner.canvas).ruler Axis2D.ver) k0 hoth1
    have hdeps1 : (((setCanvasRulerLen w Axis2D.ver (some (autoLen k0 lo hi))).frameOf
        Owner.canvas).ruler Axis2D.ver).anchorableKinds .placeable = [] := by
      simp [RulerCore.anchorableKinds, pinKinds, List.filter,
        hrefs1 .pmax, hrefs1 .pmid, hrefs1 .pmin]
    have hlen1 : (((setCanvasRulerLen w Axis2D.ver (some (autoLen k0 lo hi))).frameOf
        Owner.canvas).ruler Axis2D.ver).len = some (autoLen k0 lo hi) := rfl
    have hsolve1 := rulerSolveLocalAuto (((setCanvasRulerLen w Axis2D.ver
        (some (autoLen k0 lo hi))).frameOf Owner.canvas).ruler Axis2D.ver)
      k0 (autoLen k0 lo hi) hlen1 hrefs1 h01 hoth1
    rw [solveRecRulerNoDeps fuel (setCanvasRulerLen w Axis2D.ver (some (autoLen k0 lo hi)))
      Owner.canvas Axis2D.ver
      (autoRuler (((setCanvasRulerLen w Axis2D.ver (some (autoLen k0 lo hi))).frameOf
        Owner.canvas).ruler Axis2D.ver) k0 (autoLen k0 lo hi)) hdeps1 hnp1 hsolve1]
    dsimp only
    have hL' : (0 : ℚ) ≤ toRat (autoLen k0 lo hi) := by
      unfold autoLen
      rw [toRat_qmax]
      rw [show toRat (0 : Q) = ((0 : Nat) : ℚ) from toRat_ofNat 0]
      push_cast
      exact le_max_right _ 0
    rw [rulerVerifyAutoW (setCanvasRulerLen
        ((setCanvasRulerLen w Axis2D.ver (some (autoLen k0 lo hi))).setFrame Owner.canvas
          (((setCanvasRulerLen w Axis2D.ver (some (autoLen k0 lo hi))).frameOf
            Owner.canvas).setRuler Axis2D.ver
            (autoRuler (((setCanvasRulerLen w Axis2D.ver (some (autoLen k0 lo hi))).frameOf
              Owner.canvas).ruler Axis2D.ver) k0 (autoLen k0 lo hi))))
        Axis2D.ver none) Owner.canvas Axis2D.ver
      (((setCanvasRulerLen w Axis2D.ver (some (autoLen k0 lo hi))).frameOf
        Owner.canvas).ruler Axis2D.ver) k0 (autoLen k0 lo hi) rfl hrefs1 h01 hL']
    rfl

theorem toRat_zeroQ : toRat (0 : Q) = 0 := by
  rw [show ((0 : Q)) = (OfNat.ofNat 0 : Q) from rfl, toRat_ofNat 0]
  norm_num

theorem toRat_oneQ : toRat (1 : Q) = 1 := by
  rw [show ((1 : Q)) = (OfNat.ofNat 1 : Q) from rfl, toRat_ofNat 1]
  norm_num

theorem toRat_halfQ : toRat ((1 : Q) / 2) = 1 / 2 := by
  rw [toRat_div, toRat_oneQ, show toRat (2 : Q) = ((2 : Nat) : ℚ) from toRat_ofNat 2]
  norm_num

theorem toRat_autoLen (k0 : PinKind) (lo hi : Q) :
    toRat (autoLen k0 lo hi) = specAutoLen (toRat (rulerPosOf k0)) (toRat lo) (toRat hi) := by
  cases k0 with
  | pmax =>
    show toRat (qmax (qmax (if qeq (rulerPosOf .pmax) 1 then 0 else hi / (1 - rulerPosOf .pmax))
      (if qeq (rulerPosOf .pmax) 0 then 0 else (-lo) / rulerPosOf .pmax)) 0) = _
    rw [if_pos (show qeq (rulerPosOf .pmax) 1 = true from by decide),
      if_neg (show ¬ (qeq (rulerPosOf .pmax) 0 = true) from by decide)]
    rw [toRat_qmax, toRat_qmax, toRat_div, toRat_neg, toRat_zeroQ]
    rw [specAutoLen, show rulerPosOf .pmax = (1 : Q) from rfl, toRat_oneQ]
    rw [if_pos rfl, if_neg one_ne_zero]
  | pmid =>
    show toRat (qmax (qmax (if qeq (rulerPosOf .pmid) 1 then 0 else hi / (1 - rulerPosOf .pmid))
      (if qeq (rulerPosOf .pmid) 0 then 0 else (-lo) / rulerPosOf .pmid)) 0) = _
    rw [if_neg (show ¬ (qeq (rulerPosOf .pmid) 1 = true) from by decide),
      if_neg (show ¬ (qeq (rulerPosOf .pmid) 0 = true) from by decide)]
    rw [toRat_qmax, toRat_qmax, toRat_div, toRat_div, toRat_neg, toRat_sub,
      toRat_oneQ, toRat_zeroQ]
    rw [specAutoLen, show rulerPosOf .pmid = ((1 : Q) / 2) from rfl, toRat_halfQ]
    rw [if_neg (by norm_num), if_neg (by norm_num)]
  | pmin =>
    show toRat (qmax (qmax (if qeq (rulerPosOf .pmin) 1 then 0 else hi / (1 - rulerPosOf .pmin))
      (if qeq (rulerPosOf .pmin) 0 then 0 else (-lo) / rulerPosOf .pmin)) 0) = _
    rw [if_neg (show ¬ (qeq (rulerPosOf .pmin) 1 = true) from by decide),
      if_pos (show qeq (rulerPosOf .pmin) 0 = true from by decide)]
    rw [toRat_qmax, toRat_qmax, toRat_div, toRat_sub, toRat_oneQ, toRat_zeroQ]
    rw [specAutoLen, show rulerPosOf .pmin = (0 : Q) from rfl, toRat_zeroQ]
    rw [if_neg zero_ne_one, if_pos rfl]

theorem ruler_setFrame_setRuler (w : World) (f : FrameCore) (ax : Axis2D) (r : RulerCore) :
    ((w.setFrame .canvas (f.setRuler ax r)).frameOf .canvas).ruler ax = r := by
  cases ax <;> rfl

theorem autoRuler_span (r : RulerCore) (k0 : PinKind) (L : Q)
    (h0 : (r.pin k0).pos = some 0) :
    ∃ vmax vmin, (autoRuler r k0 L).pmax.pos = some vmax ∧
      (autoRuler r k0 L).pmin.pos = some vmin ∧
      toRat vmax - toRat vmin = toRat L := by
  cases k0 with
  | pmax =>
    refine ⟨0, (0 : Q) + (rulerPosOf .pmin - rulerPosOf .pmax) * L, ?_, ?_, ?_⟩
    · simp only [autoRuler, autoPin, if_pos rfl]
      exact h0
    · simp [autoRuler, autoPin]
    · rw [toRat_add, toRat_mul, toRat_sub,
        show rulerPosOf .pmin = (0 : Q) from rfl, show rulerPosOf .pmax = (1 : Q) from rfl,
        toRat_zeroQ, toRat_oneQ]
      ring
  | pmid =>
    refine ⟨(0 : Q) + (rulerPosOf .pmax - rulerPosOf .pmid) * L,
      (0 : Q) + (rulerPosOf .pmin - rulerPosOf .pmid) * L, ?_, ?_, ?_⟩
    · simp [autoRuler, autoPin]
    · simp [autoRuler, autoPin]
    · rw [toRat_add, toRat_add, toRat_mul, toRat_mul, toRat_sub, toRat_sub,
        show rulerPosOf .pmin = (0 : Q) from rfl, show rulerPosOf .pmax = (1 : Q) from rfl,
        show rulerPosOf .pmid = ((1 : Q) / 2) from rfl,
        toRat_zeroQ, toRat_oneQ, toRat_halfQ]
      ring
  | pmin =>
    refine ⟨(0 : Q) + (rulerPosOf .pmax - rulerPosOf .pmin) * L, 0, ?_, ?_, ?_⟩
    · simp [autoRuler, autoPin]
    · simp only [autoRuler, autoPin, if_pos rfl]
      exact h0
    · rw [toRat_add, toRat_mul, toRat_sub,
        show rulerPosOf .pmin = (0 : Q) from rfl, show rulerPosOf .pmax = (1 : Q) from rfl,
        toRat_zeroQ, toRat_oneQ]
      ring

theorem autoWarns_spec (ax : Axis2D) (k0 : PinKind) (lo hi : Q) :
    (if qeq (autoLen k0 lo hi) 0 then [autoSizeWarning ax] else [])
      = (if specAutoLen (toRat (rulerPosOf k0)) (toRat lo) (toRat hi) = 0
         then [autoSizeWarning ax] else []) := by
  by_cases h : specAutoLen (toRat (rulerPosOf k0)) (toRat lo) (toRat hi) = 0
  · rw [if_pos h, if_pos]
    rw [qeq_true_iff, toRat_zeroQ, toRat_autoLen]
    exact h
  · rw [if_neg h, if_neg]
    intro hc
    exact h (by rw [← toRat_autoLen k0 lo hi, ← toRat_zeroQ, ← qeq_true_iff]; exact hc)

/-- C3: when the canvas ruler on an axis is neither placed nor independently
placeable (here: fresh except the origin anchor pin placed at exactly 0) and
the registered frames' gathered extents are `(lo, hi)`, the orchestrator
resolves the ruler length as `max(needed_high, needed_low, 0)` of the spec's
formula (the realized span `pmax - pmin` of the solved ruler equals it), a
warning is emitted exactly when that value is 0, and the zero length is then
still used. -/
theorem canvasRuler_autoLength_spec (fuel : Nat) (w : World) (ax : Axis2D)
    (a : AnchorName) (k0 : PinKind) (lo hi : Q)
    (hO : anchorOfString w.origin = some a)
    (hk : axisKind ax a = k0)
    (hlen : ((w.frameOf .canvas).ruler ax).len = none)
    (hrefs : ∀ k, (((w.frameOf .canvas).ruler ax).pin k).ref = none)
    (h0 : (((w.frameOf .canvas).ruler ax).pin k0).pos = some 0)
    (hoth : ∀ k, k ≠ k0 → (((w.frameOf .canvas).ruler ax).pin k).pos = none)
    (hext : gatherExtents w ax = .ok (lo, hi)) :
    ∃ w' vmax vmin,
      solveCanvasRuler (fuel + 2) w ax =
        .ok (w', if specAutoLen (toRat (rulerPosOf k0)) (toRat lo) (toRat hi) = 0
                 then [autoSizeWarning ax] else []) ∧
      ((w'.frameOf .canvas).ruler ax).pmax.pos = some vmax ∧
      ((w'.frameOf .canvas).ruler ax).pmin.pos = some vmin ∧
      toRat vmax - toRat vmin
        = specAutoLen (toRat (rulerPosOf k0)) (toRat lo) (toRat hi) := by
  obtain ⟨vmax, vmin, hvmax, hvmin, hspan⟩ :=
    autoRuler_span ((w.frameOf .canvas).ruler ax) k0 (autoLen k0 lo hi) h0
  refine ⟨w.setFrame .canvas ((w.frameOf .canvas).setRuler ax
      { autoRuler ((w.frameOf .canvas).ruler ax) k0 (autoLen k0 lo hi)
        with len := none }), vmax, vmin, ?_, ?_, ?_, ?_⟩
  · rw [solveCanvasAuto fuel w ax a k0 lo hi hO hk hlen hrefs h0 hoth hext,
      autoWarns_spec ax k0 lo hi]
  · rw [ruler_setFrame_setRuler]
    exact hvmax
  · rw [ruler_setFrame_setRuler]
    exact hvmin
  · rw [← toRat_autoLen k0 lo hi]
    exact hspan

/-- Witness for C3 on the concrete layout `c3World` (horizontal axis,
extents (-1, 3), origin kind `pmin`). -/
theorem canvasRuler_autoLength_spec_witness :
    gatherExtents c3World .hor = .ok (-1, 3) ∧
    (((c3World.frameOf .canvas).ruler .hor).pin .pmin).pos = some 0 ∧
    (∃ w' vmax vmin,
      solveCanvasRuler (28 + 2) c3World .hor =
        .ok (w', if specAutoLen (toRat (rulerPosOf .pmin)) (toRat (-1)) (toRat 3) = 0
                 then [autoSizeWarning .hor] else []) ∧
      ((w'.frameOf .canvas).ruler .hor).pmax.pos = some vmax ∧
      ((w'.frameOf .canvas).ruler .hor).pmin.pos = some vmin ∧
      toRat vmax - toRat vmin
        = specAutoLen (toRat (rulerPosOf .pmin)) (toRat (-1)) (toRat 3)) :=
  ⟨by decide, by decide,
    canvasRuler_autoLength_spec 28 c3World .hor .bottomleft .pmin (-1) 3
      (by decide) (by decide) (by decide)
      (by intro k; cases k <;> rfl) (by decide)
      (by intro k hk2; cases k <;> first | rfl | exact absurd rfl hk2)
      (by decide)⟩

/-- C6: after automatic canvas-extent resolution on an axis, the ruler's
three pins all hold concrete positions (`is_placed` is true) while the
explicit-length slot is reverted (`get_ruler_length(allow_calculated=False)`
is none, unchanged from before); pin references and offsets, the other
axis' ruler, the frame registry, names and origin are untouched. -/
theorem canvasRuler_autoSolve_effect (fuel : Nat) (w : World) (ax : Axis2D)
    (a : AnchorName) (k0 : PinKind) (lo hi : Q)
    (hO : anchorOfString w.origin = some a)
    (hk : axisKind ax a = k0)
    (hlen : ((w.frameOf .canvas).ruler ax).len = none)
    (hrefs : ∀ k, (((w.frameOf .canvas).ruler ax).pin k).ref = none)
    (h0 : (((w.frameOf .canvas).ruler ax).pin k0).pos = some 0)
    (hoth : ∀ k, k ≠ k0 → (((w.frameOf .canvas).ruler ax).pin k).pos = none)
    (hext : gatherExtents w ax = .ok (lo, hi)) :
    ∃ w' ws, solveCanvasRuler (fuel + 2) w ax = .ok (w', ws) ∧
      ((w'.frameOf .canvas).ruler ax).isPlacedB = true ∧
      ((w'.frameOf .canvas).ruler ax).lengthOpt false = none ∧
      ((w'.frameOf .canvas).ruler ax).len = ((w.frameOf .canvas).ruler ax).len ∧
      (∀ k, (((w'.frameOf .canvas).ruler ax).pin k).ref
              = (((w.frameOf .canvas).ruler ax).pin k).ref ∧
            (((w'.frameOf .canvas).ruler ax).pin k).offset
              = (((w.frameOf .canvas).ruler ax).pin k).offset) ∧
      (∀ ax', ax' ≠ ax → (w'.frameOf .canvas).ruler ax' = (w.frameOf .canvas).ruler ax') ∧
      w'.frames = w.frames ∧ w'.names = w.names ∧ w'.origin = w.origin := by
  refine ⟨w.setFrame .canvas ((w.frameOf .canvas).setRuler ax
      { autoRuler ((w.frameOf .canvas).ruler ax) k0 (autoLen k0 lo hi)
        with len := none }),
    if qeq (autoLen k0 lo hi) 0 then [autoSizeWarning ax] else [],
    solveCanvasAuto fuel w ax a k0 lo hi hO hk hlen hrefs h0 hoth hext,
    ?_, ?_, ?_, ?_, ?_, ?_, ?_, ?_⟩
  · rw [ruler_setFrame_setRuler]
    cases k0 with
    | pmax =>
      have h0' : ((w.frameOf .canvas).ruler ax).pmax.pos = some 0 := h0
      simp [RulerCore.isPlacedB, pinKinds, RulerCore.pin, autoRuler, autoPin, h0']
    | pmid =>
      have h0' : ((w.frameOf .canvas).ruler ax).pmid.pos = some 0 := h0
      simp [RulerCore.isPlacedB, pinKinds, RulerCore.pin, autoRuler, autoPin, h0']
    | pmin =>
      have h0' : ((w.frameOf .canvas).ruler ax).pmin.pos = some 0 := h0
      simp [RulerCore.isPlacedB, pinKinds, RulerCore.pin, autoRuler, autoPin, h0']
  · rw [ruler_setFrame_setRuler]
    rfl
  · rw [ruler_setFrame_setRuler, hlen]
  · intro k
    rw [ruler_setFrame_setRuler]
    constructor
    · cases k <;> cases k0 <;> simp [RulerCore.pin, autoRuler, autoPin]
    · cases k <;> cases k0 <;> simp [RulerCore.pin, autoRuler, autoPin]
  · intro ax' hne
    cases ax' <;> cases ax <;> first | exact absurd rfl hne | rfl
  · rfl
  · rfl
  · rfl

/-- Witness for C6 on the concrete layout `c3World`. -/
theorem canvasRuler_autoSolve_effect_witness :
    (((c3World.frameOf .canvas).ruler .hor).pin .pmin).pos = some 0 ∧
    gatherExtents c3World .hor = .ok (-1, 3) ∧
    (∃ w' ws, solveCanvasRuler (28 + 2) c3World .hor = .ok (w', ws) ∧
      ((w'.frameOf .canvas).ruler .hor).isPlacedB = true ∧
      ((w'.frameOf .canvas).ruler .hor).lengthOpt false = none ∧
      ((w'.frameOf .canvas).ruler .hor).len = ((c3World.frameOf .canvas).ruler .hor).len ∧
      (∀ k, (((w'.frameOf .canvas).ruler .hor).pin k).ref
              = (((c3World.frameOf .canvas).ruler .hor).pin k).ref ∧
            (((w'.frameOf .canvas).ruler .hor).pin k).offset
              = (((c3World.frameOf .canvas).ruler .hor).pin k).offset) ∧
      (∀ ax', ax' ≠ .hor →
        (w'.frameOf .canvas).ruler ax' = (c3World.frameOf .canvas).ruler ax') ∧
      w'.frames = c3World.frames ∧ w'.names = c3World.names ∧
      w'.origin = c3World.origin) :=
  ⟨by decide, by decide,
    canvasRuler_autoSolve_effect 28 c3World .hor .bottomleft .pmin (-1) 3
      (by decide) (by decide) (by decide)
      (by intro k; cases k <;> rfl) (by decide)
      (by intro k hk2; cases k <;> first | rfl | exact absurd rfl hk2)
      (by decide)⟩

theorem placePinStep_pin_other (base : Q) (k0 : PinKind) (rlen : Q)
    (acc : RulerCore) (k k' : PinKind) (hne : k' ≠ k) :
    ((placePinStep base k0 rlen acc k).pin k') = acc.pin k' := by
  unfold placePinStep
  by_cases h : (acc.pin k).pos.isSome = true
  · rw [if_pos h]
  · rw [if_neg h]
    cases k <;> cases k' <;> first | exact absurd rfl hne | rfl

theorem placePinStep_pin_self (base : Q) (k0 : PinKind) (rlen : Q)
    (acc : RulerCore) (k : PinKind) :
    ((placePinStep base k0 rlen acc k).pin k).pos.isSome = true := by
  unfold placePinStep
  by_cases h : (acc.pin k).pos.isSome = true
  · rw [if_pos h]
    exact h
  · rw [if_neg h]
    cases k <;> rfl

theorem clear_placePinStep (base : Q) (k0 : PinKind) (rlen : Q)
    (acc : RulerCore) (k : PinKind) :
    clearRulerPins (placePinStep base k0 rlen acc k) = clearRulerPins acc := by
  unfold placePinStep
  by_cases h : (acc.pin k).pos.isSome = true
  · rw [if_pos h]
  · rw [if_neg h]
    cases k <;> rfl

theorem solveLocal_ok_shape (r r' : RulerCore) (h : r.solveLocal = .ok r') :
    ∃ base k0 rlen, r' = pinKinds.foldl (placePinStep base k0 rlen) r := by
  unfold RulerCore.solveLocal at h
  split at h
  · exact absurd h (by simp)
  · split at h
    · exact absurd h (by simp)
    · split at h
      · exact absurd h (by simp)
      · exact ⟨_, _, _, (Except.ok.inj h).symm⟩

theorem solveLocal_clear (r r' : RulerCore) (h : r.solveLocal = .ok r') :
    clearRulerPins r' = clearRulerPins r := by
  obtain ⟨base, k0, rlen, hsh⟩ := solveLocal_ok_shape r r' h
  subst hsh
  show clearRulerPins (placePinStep base k0 rlen
    (placePinStep base k0 rlen (placePinStep base k0 rlen r .pmax) .pmid) .pmin)
      = clearRulerPins r
  rw [clear_placePinStep, clear_placePinStep, clear_placePinStep]

theorem solveLocal_placed (r r' : RulerCore) (h : r.solveLocal = .ok r') :
    ∀ k, (r'.pin k).pos.isSome = true := by
  obtain ⟨base, k0, rlen, hsh⟩ := solveLocal_ok_shape r r' h
  subst hsh
  intro k
  show ((placePinStep base k0 rlen
    (placePinStep base k0 rlen (placePinStep base k0 rlen r .pmax) .pmid) .pmin).pin k).pos.isSome = true
  cases k with
  | pmax =>
    rw [placePinStep_pin_other _ _ _ _ _ _ (by decide),
      placePinStep_pin_other _ _ _ _ _ _ (by decide)]
    exact placePinStep_pin_self _ _ _ _ _
  | pmid =>
    rw [placePinStep_pin_other _ _ _ _ _ _ (by decide)]
    exact placePinStep_pin_self _ _ _ _ _
  | pmin =>
    exact placePinStep_pin_self _ _ _ _ _

theorem clearFramePins_idem (f : FrameCore) :
    clearFramePins (clearFramePins f) = clearFramePins f := rfl

theorem clearFrame_setRuler (f : FrameCore) (ax : Axis2D) (r' : RulerCore)
    (h : clearRulerPins r' = clearRulerPins (f.ruler ax)) :
    clearFramePins (f.setRuler ax r') = clearFramePins f := by
  cases ax with
  | hor =>
    show (⟨clearRulerPins r', clearRulerPins f.vr⟩ : FrameCore) = _
    rw [h]
    rfl
  | ver =>
    show (⟨clearRulerPins f.hr, clearRulerPins r'⟩ : FrameCore) = _
    rw [h]
    rfl

theorem clearFrames_set (l : List FrameCore) (i : Nat) (f' : FrameCore)
    (h : clearFramePins f' = clearFramePins (l.getD i .empty)) :
    (l.set i f').map clearFramePins = l.map clearFramePins := by
  induction l generalizing i with
  | nil => rfl
  | cons x xs ih =>
    cases i with
    | zero =>
      show clearFramePins f' :: xs.map clearFramePins = clearFramePins x :: xs.map clearFramePins
      rw [show clearFramePins f' = clearFramePins x from h]
    | succ n =>
      show clearFramePins x :: (xs.set n f').map clearFramePins = _
      rw [ih n h]
      rfl

theorem clearAll_setFrame (w : World) (o : Owner) (f' : FrameCore)
    (h : clearFramePins f' = clearFramePins (w.frameOf o)) :
    clearAllPins (w.setFrame o f') = clearAllPins w := by
  cases o with
  | canvas =>
    show (⟨clearFramePins f', w.frames.map clearFramePins, w.names, w.origin⟩ : World) = _
    rw [show clearFramePins f' = clearFramePins w.canvas from h]
    rfl
  | frame i =>
    show (⟨clearFramePins w.canvas, (w.frames.set i f').map clearFramePins, w.names, w.origin⟩ : World) = _
    rw [clearFrames_set w.frames i f' h]
    rfl

theorem getD_set_list (l : List FrameCore) (i j : Nat) (a d : FrameCore) :
    (l.set i a).getD j d = if i = j ∧ j < l.length then a else l.getD j d := by
  induction l generalizing i j with
  | nil =>
    simp [List.set]
  | cons x xs ih =>
    cases i with
    | zero =>
      cases j with
      | zero => simp [List.set, List.getD]
      | succ m => simp [List.set, List.getD]
    | succ n =>
      cases j with
      | zero => simp [List.set, List.getD]
      | succ m =>
        show (xs.set n a).getD m d = _
        rw [ih n m]
        simp [Nat.succ_lt_succ_iff]

theorem ruler_setRuler_same (f : FrameCore) (ax : Axis2D) (r' : RulerCore) :
    (f.setRuler ax r').ruler ax = r' := by
  cases ax <;> rfl

theorem ruler_setRuler_other (f : FrameCore) (ax ax' : Axis2D) (r' : RulerCore)
    (hne : ax' ≠ ax) : (f.setRuler ax r').ruler ax' = f.ruler ax' := by
  cases ax <;> cases ax' <;> first | exact absurd rfl hne | rfl

theorem pin_setPin_same (r : RulerCore) (k : PinKind) (c : PinCore) :
    (r.setPin k c).pin k = c := by
  cases k <;> rfl

theorem pin_setPin_other (r : RulerCore) (k k' : PinKind) (c : PinCore)
    (hne : k' ≠ k) : (r.setPin k c).pin k' = r.pin k' := by
  cases k <;> cases k' <;> first | exact absurd rfl hne | rfl

theorem clearRuler_setPin_pos (r : RulerCore) (k : PinKind) (v : Option Q) :
    clearRulerPins (r.setPin k { r.pin k with pos := v }) = clearRulerPins r := by
  cases k <;> rfl

theorem frameOf_setFrame_cases (w : World) (o : Owner) (f : FrameCore) (o' : Owner) :
    (w.setFrame o f).frameOf o' = w.frameOf o' ∨
    ((w.setFrame o f).frameOf o' = f ∧ o' = o) := by
  cases o with
  | canvas =>
    cases o' with
    | canvas => exact Or.inr ⟨rfl, rfl⟩
    | frame j => exact Or.inl rfl
  | frame i =>
    cases o' with
    | canvas => exact Or.inl rfl
    | frame j =>
      show (w.frames.set i f).getD j .empty = w.frames.getD j .empty ∨
        ((w.frames.set i f).getD j .empty = f ∧ Owner.frame j = Owner.frame i)
      rw [getD_set_list]
      by_cases hij : i = j ∧ j < w.frames.length
      · rw [if_pos hij]
        exact Or.inr ⟨rfl, by rw [hij.1]⟩
      · rw [if_neg hij]
        exact Or.inl rfl

theorem cons_writeRuler (w : World) (o : Owner) (ax : Axis2D) (r' : RulerCore)
    (hclear : clearRulerPins r' = clearRulerPins ((w.frameOf o).ruler ax))
    (hplaced : ∀ k, (r'.pin k).pos.isSome = true) :
    clearAllPins (w.setFrame o ((w.frameOf o).setRuler ax r')) = clearAllPins w ∧
    ∀ q, (w.pinC q).pos.isSome = true →
      ((w.setFrame o ((w.frameOf o).setRuler ax r')).pinC q).pos.isSome = true := by
  constructor
  · exact clearAll_setFrame w o _ (clearFrame_setRuler _ ax r' hclear)
  · intro q hq
    show ((((w.setFrame o ((w.frameOf o).setRuler ax r')).frameOf q.owner).ruler q.ax).pin q.kind).pos.isSome = true
    rcases frameOf_setFrame_cases w o ((w.frameOf o).setRuler ax r') q.owner with hsame | ⟨heq, ho⟩
    · rw [hsame]
      exact hq
    · rw [heq]
      by_cases hax : q.ax = ax
      · rw [hax, ruler_setRuler_same]
        exact hplaced q.kind
      · rw [ruler_setRuler_other _ _ _ _ hax, ← ho]
        exact hq

theorem cons_setPos (w : World) (p : PinId) (v : Q) :
    clearAllPins (w.setPosOf p (some v)) = clearAllPins w ∧
    ∀ q, (w.pinC q).pos.isSome = true →
      ((w.setPosOf p (some v)).pinC q).pos.isSome = true := by
  constructor
  · exact clearAll_setFrame w p.owner _
      (clearFrame_setRuler _ p.ax _ (clearRuler_setPin_pos _ p.kind _))
  · intro q hq
    show ((((w.setFrame p.owner ((w.frameOf p.owner).setRuler p.ax
      (((w.frameOf p.owner).ruler p.ax).setPin p.kind
        { w.pinC p with pos := some v }))).frameOf q.owner).ruler q.ax).pin q.kind).pos.isSome = true
    rcases frameOf_setFrame_cases w p.owner
      (((w.frameOf p.owner)).setRuler p.ax
        (((w.frameOf p.owner).ruler p.ax).setPin p.kind { w.pinC p with pos := some v }))
      q.owner with hsame | ⟨heq, ho⟩
    · rw [hsame]
      exact hq
    · rw [heq]
      by_cases hax : q.ax = p.ax
      · rw [hax, ruler_setRuler_same]
        by_cases hk : q.kind = p.kind
        · rw [hk, pin_setPin_same]
          rfl
        · rw [pin_setPin_other _ _ _ _ hk, ← hax, ← ho]
          exact hq
      · rw [ruler_setRuler_other _ _ _ _ hax, ← ho]
        exact hq

theorem solveNodeLocal_cons (w : World) (nd : Node) (w' : World)
    (h : w.solveNodeLocal nd = .ok w') :
    clearAllPins w' = clearAllPins w ∧
    ∀ q, (w.pinC q).pos.isSome = true → (w'.pinC q).pos.isSome = true := by
  cases nd with
  | pin p =>
    simp only [World.solveNodeLocal] at h
    split at h
    · exact absurd h (by simp)
    · split at h
      · exact absurd h (by simp)
      · rw [Except.ok.injEq] at h
        subst h
        exact cons_setPos w p _
  | ruler o ax =>
    simp only [World.solveNodeLocal] at h
    split at h
    · exact absurd h (by simp)
    · rename_i r' heq
      rw [Except.ok.injEq] at h
      subst h
      exact cons_writeRuler w o ax r' (solveLocal_clear _ _ heq) (solveLocal_placed _ _ heq)
  | frame o =>
    simp only [World.solveNodeLocal] at h
    split at h
    · exact absurd h (by simp)
    · rename_i rh heqh
      split at h
      · exact absurd h (by simp)
      · rename_i rv heqv
        rw [Except.ok.injEq] at h
        subst h
        have s1 := cons_writeRuler w o .hor rh (solveLocal_clear _ _ heqh)
          (solveLocal_placed _ _ heqh)
        have s2 := cons_writeRuler (w.setFrame o ((w.frameOf o).setRuler .hor rh)) o .ver rv
          (solveLocal_clear _ _ heqv) (solveLocal_placed _ _ heqv)
        exact ⟨s2.1.trans s1.1, fun q hq => s2.2 q (s1.2 q hq)⟩

/-- The recursive solver only writes pin positions: a successful
`solveStep` preserves the constraint skeleton, and never unplaces a placed
pin. -/
theorem solveStep_cons (fuel : Nat) :
    ∀ (t : Node ⊕ List Node) (w : World) (path : List Node) (w' : World)
      (p' : List Node), solveStep fuel t w path = .ok (w', p') →
      clearAllPins w' = clearAllPins w ∧
      ∀ q, (w.pinC q).pos.isSome = true → (w'.pinC q).pos.isSome = true := by
  induction fuel with
  | zero => intro t w path w' p' h; simp [solveStep] at h
  | succ n ih =>
    intro t w path w' p' h
    match t with
    | .inl node =>
      simp only [solveStep] at h
      split at h
      · simp at h
      · split at h
        · rw [Except.ok.injEq, Prod.mk.injEq] at h
          obtain ⟨hw, _⟩ := h
          subst hw
          exact ⟨rfl, fun q hq => hq⟩
        · split at h
          · simp at h
          · rename_i w1 p1 heq
            have s1 := ih _ _ _ _ _ heq
            split at h
            · rw [Except.ok.injEq, Prod.mk.injEq] at h
              obtain ⟨hw, _⟩ := h
              subst hw
              exact s1
            · split at h
              · simp at h
              · rename_i w2 heq2
                have s2 := solveNodeLocal_cons w1 node w2 heq2
                rw [Except.ok.injEq, Prod.mk.injEq] at h
                obtain ⟨hw, _⟩ := h
                subst hw
                exact ⟨s2.1.trans s1.1, fun q hq => s2.2 q (s1.2 q hq)⟩
    | .inr [] =>
      simp only [solveStep] at h
      rw [Except.ok.injEq, Prod.mk.injEq] at h
      obtain ⟨hw, _⟩ := h
      subst hw
      exact ⟨rfl, fun q hq => hq⟩
    | .inr (d :: ds) =>
      simp only [solveStep] at h
      split at h
      · simp at h
      · rename_i w1 p1 heq
        have s1 := ih _ _ _ _ _ heq
        have s2 := ih _ _ _ _ _ h
        exact ⟨s2.1.trans s1.1, fun q hq => s2.2 q (s1.2 q hq)⟩

theorem solveFramesList_cons (fuel : Nat) : ∀ (l : List Nat) (w w' : World),
    solveFramesList fuel l w = .ok w' →
    clearAllPins w' = clearAllPins w ∧
    ∀ q, (w.pinC q).pos.isSome = true → (w'.pinC q).pos.isSome = true := by
  intro l
  induction l with
  | nil =>
    intro w w' h
    rw [show solveFramesList fuel [] w = .ok w from rfl, Except.ok.injEq] at h
    subst h
    exact ⟨rfl, fun q hq => hq⟩
  | cons i is ih =>
    intro w w' h
    simp only [solveFramesList] at h
    split at h
    · simp at h
    · rename_i w1 p1 heq
      have s1 := solveStep_cons fuel (.inl (.frame (.frame i))) w [] w1 p1 heq
      have s2 := ih w1 w' h
      exact ⟨s2.1.trans s1.1, fun q hq => s2.2 q (s1.2 q hq)⟩

theorem len_none_of_unplaceable (r : RulerCore) (k : PinKind)
    (hk : (r.pin k).pos.isSome = true) (hnp : r.isPlaceableB = false) :
    r.len = none := by
  cases hlen : r.len with
  | none => rfl
  | some L =>
    exfalso
    have hmem : k ∈ pinKinds := by cases k <;> simp [pinKinds]
    have hfil : k ∈ r.anchorableKinds .both :=
      List.mem_filter.mpr ⟨hmem, by rw [hk]; rfl⟩
    have hlen1 : 1 ≤ (r.anchorableKinds .both).length :=
      Nat.succ_le_of_lt (List.length_pos.mpr (List.ne_nil_of_mem hfil))
    have hpl : r.isPlaceableB = true := by
      unfold RulerCore.isPlaceableB
      rw [hlen]
      simp only [Option.isSome_some, if_true]
      exact decide_eq_true (by omega)
    simp [hpl] at hnp

theorem pinC_setCanvasLen_pos (w : World) (ax : Axis2D) (l : Option Q) (q : PinId) :
    ((setCanvasRulerLen w ax l).pinC q).pos = (w.pinC q).pos := by
  obtain ⟨o, ax', k⟩ := q
  cases o with
  | canvas => cases ax <;> cases ax' <;> cases k <;> rfl
  | frame i => cases ax <;> rfl

theorem clearAll_setCanvasLen (w : World) (ax : Axis2D) (l : Option Q) :
    clearAllPins (setCanvasRulerLen w ax l) = setCanvasRulerLen (clearAllPins w) ax l := by
  cases ax <;> rfl

theorem setCanvasLen_collapse (w : World) (ax : Axis2D) (l l' : Option Q) :
    setCanvasRulerLen (setCanvasRulerLen w ax l) ax l' = setCanvasRulerLen w ax l' := by
  cases ax <;> rfl

theorem setCanvasLen_id_of_none (w : World) (ax : Axis2D)
    (hlen : ((w.frameOf .canvas).ruler ax).len = none) :
    setCanvasRulerLen w ax none = w := by
  cases ax with
  | hor =>
    show w.setFrame .canvas ((w.frameOf .canvas).setRuler .hor
      { (w.frameOf .canvas).ruler .hor with len := none }) = w
    rw [show ({ (w.frameOf .canvas).ruler .hor with len := none } : RulerCore)
      = (w.frameOf .canvas).ruler .hor from by rw [← hlen]]
    rfl
  | ver =>
    show w.setFrame .canvas ((w.frameOf .canvas).setRuler .ver
      { (w.frameOf .canvas).ruler .ver with len := none }) = w
    rw [show ({ (w.frameOf .canvas).ruler .ver with len := none } : RulerCore)
      = (w.frameOf .canvas).ruler .ver from by rw [← hlen]]
    rfl

theorem len_clearAll (w : World) (ax : Axis2D) :
    (((clearAllPins w).frameOf .canvas).ruler ax).len
      = ((w.frameOf .canvas).ruler ax).len := by
  cases ax <;> rfl

/-- `solveCanvasRuler` preserves the constraint skeleton whenever some pin
of the canvas ruler on that axis is already placed (which rules out a set
explicit length surviving into the automatic branch). -/
theorem solveCanvasRuler_cons (fuel : Nat) (w : World) (ax : Axis2D) (k : PinKind)
    (hk : (w.pinC ⟨.canvas, ax, k⟩).pos.isSome = true)
    (w' : World) (warns : List String)
    (h : solveCanvasRuler fuel w ax = .ok (w', warns)) :
    clearAllPins w' = clearAllPins w ∧
    ∀ q, (w.pinC q).pos.isSome = true → (w'.pinC q).pos.isSome = true := by
  unfold solveCanvasRuler at h
  dsimp only at h
  split at h
  · split at h
    · simp at h
    · rw [Except.ok.injEq, Prod.mk.injEq] at h
      obtain ⟨hw, _⟩ := h
      subst hw
      exact ⟨rfl, fun q hq => hq⟩
  · split at h
    · split at h
      · simp at h
      · rename_i w1 p1 heq
        split at h
        · simp at h
        · rw [Except.ok.injEq, Prod.mk.injEq] at h
          obtain ⟨hw, _⟩ := h
          subst hw
          exact solveStep_cons fuel (.inl (.ruler .canvas ax)) w [] w1 p1 heq
    · rename_i hnp hnpl
      split at h
      · simp at h
      · split at h
        · simp at h
        · split at h
          · simp at h
          · rename_i pq hpq lohi hlohi rlen hrlen
            split at h
            · simp at h
            · rename_i w2 p2 heq
              split at h
              · simp at h
              · rw [Except.ok.injEq, Prod.mk.injEq] at h
                obtain ⟨hw, _⟩ := h
                subst hw
                have hnpl' : ((w.frameOf .canvas).ruler ax).isPlaceableB = false :=
                  Bool.not_eq_true _ ▸ eq_false_of_ne_true hnpl
                have hlen : ((w.frameOf .canvas).ruler ax).len = none :=
                  len_none_of_unplaceable _ k hk hnpl'
                have s2 := solveStep_cons fuel (.inl (.ruler .canvas ax))
                  (setCanvasRulerLen w ax (some rlen)) [] w2 p2 heq
                constructor
                · rw [clearAll_setCanvasLen, s2.1, clearAll_setCanvasLen,
                    setCanvasLen_collapse]
                  exact setCanvasLen_id_of_none (clearAllPins w) ax
                    ((len_clearAll w ax).trans hlen)
                · intro q hq
                  have h1 : ((setCanvasRulerLen w ax (some rlen)).pinC q).pos.isSome = true := by
                    rw [pinC_setCanvasLen_pos]
                    exact hq
                  have h2 := s2.2 q h1
                  show ((setCanvasRulerLen w2 ax none).pinC q).pos.isSome = true
                  rw [show ((setCanvasRulerLen w2 ax none).pinC q).pos = (w2.pinC q).pos
                    from pinC_setCanvasLen_pos w2 ax none q]
                  exact h2

theorem world_setOrigin_shape (w : World) (k1 k2 : PinKind) :
    (w.setPinC ⟨.canvas, .hor, k1⟩ ⟨some 0, none, 0⟩).setPinC
        ⟨.canvas, .ver, k2⟩ ⟨some 0, none, 0⟩
      = ⟨originSetF w.canvas k1 k2, w.frames, w.names, w.origin⟩ := by
  cases k1 <;> cases k2 <;> rfl

theorem setPlacement_origin (v : World) (s : String) (a : AnchorName)
    (hO : anchorOfString s = some a) :
    setPlacementFrame v .canvas s (.tup [0, 0]) =
      .ok ⟨originSetF v.canvas (anchorHV a).1 (anchorHV a).2,
        v.frames, v.names, v.origin⟩ := by
  show (match resolveAnchor .canvas s with
    | .error e => (.error e : Except Err World)
    | .ok (p1, p2) =>
      .ok ((v.setPinC p1 ⟨some 0, none, 0⟩).setPinC p2 ⟨some 0, none, 0⟩)) = _
  rw [show resolveAnchor .canvas s = .ok (anchorPinIds .canvas a) from by
    unfold resolveAnchor; rw [hO]]
  show Except.ok ((v.setPinC ⟨.canvas, .hor, (anchorHV a).1⟩ ⟨some 0, none, 0⟩).setPinC
    ⟨.canvas, .ver, (anchorHV a).2⟩ ⟨some 0, none, 0⟩) = _
  rw [world_setOrigin_shape]

theorem setPlacement_origin_none (v : World) (s : String)
    (hO : anchorOfString s = none) :
    setPlacementFrame v .canvas s (.tup [0, 0]) = .error .valueError := by
  show (match resolveAnchor .canvas s with
    | .error e => (.error e : Except Err World)
    | .ok (p1, p2) =>
      .ok ((v.setPinC p1 ⟨some 0, none, 0⟩).setPinC p2 ⟨some 0, none, 0⟩)) = _
  rw [show resolveAnchor .canvas s = .error .valueError from by
    unfold resolveAnchor; rw [hO]]

/-- Closed form of the `place_all_frames` prelude: all pins cleared and the
origin anchor placed at (0, 0). -/
theorem preludeW_shape (w : World) (a : AnchorName)
    (hO : anchorOfString w.origin = some a) :
    preludeW w = .ok
      ⟨originSetF (clearFramePins w.canvas) (anchorHV a).1 (anchorHV a).2,
        w.frames.map clearFramePins, w.names, w.origin⟩ := by
  unfold preludeW
  dsimp only
  rw [setPlacement_origin _ _ a hO]

theorem preludeW_none (w : World) (hO : anchorOfString w.origin = none) :
    preludeW w = .error .valueError := by
  unfold preludeW
  dsimp only
  rw [setPlacement_origin_none _ _ hO]

theorem originSetF_clear_collapse (c : FrameCore) (k1 k2 : PinKind) :
    originSetF (clearFramePins (originSetF c k1 k2)) k1 k2
      = originSetF (clearFramePins c) k1 k2 := by
  cases k1 <;> cases k2 <;> rfl

theorem map_clear_idem (l : List FrameCore) :
    (l.map clearFramePins).map clearFramePins = l.map clearFramePins := by
  induction l with
  | nil => rfl
  | cons x xs ih =>
    show clearFramePins (clearFramePins x) :: _ = _
    rw [clearFramePins_idem, ih]
    rfl

theorem pinC_originSetF_hor (c : FrameCore) (fs : List FrameCore)
    (ns : List String) (og : String) (k1 k2 : PinKind) :
    ((⟨originSetF c k1 k2, fs, ns, og⟩ : World).pinC ⟨.canvas, .hor, k1⟩).pos
      = some 0 := by
  show ((c.hr.setPin k1 ⟨some 0, none, 0⟩).pin k1).pos = some 0
  rw [pin_setPin_same]

theorem pinC_originSetF_ver (c : FrameCore) (fs : List FrameCore)
    (ns : List String) (og : String) (k1 k2 : PinKind) :
    ((⟨originSetF c k1 k2, fs, ns, og⟩ : World).pinC ⟨.canvas, .ver, k2⟩).pos
      = some 0 := by
  show ((c.vr.setPin k2 ⟨some 0, none, 0⟩).pin k2).pos = some 0
  rw [pin_setPin_same]

/-- C9: a full `place_all_frames` pass is a deterministic function of the
declared constraint set: re-running it on the world produced by a successful
pass (the pass itself clears all placements first) returns the identical
world and warning list, bit for bit. -/
theorem placeAllFrames_stable (fuel : Nat) (w w1 : World) (ws : List String)
    (h : placeAllFrames fuel w = .ok (w1, ws)) :
    placeAllFrames fuel w1 = .ok (w1, ws) := by
  unfold placeAllFrames at h
  split at h
  · simp at h
  · rename_i wC hpre
    split at h
    · simp at h
    · rename_i wD hD
      split at h
      · simp at h
      · rename_i u hver
        split at h
        · simp at h
        · rename_i wE warnsH hH
          split at h
          · simp at h
          · rename_i wF warnsV hV
            rw [Except.ok.injEq, Prod.mk.injEq] at h
            obtain ⟨hwf, hws⟩ := h
            subst hwf
            subst hws
            cases hOc : anchorOfString w.origin with
            | none =>
              rw [preludeW_none w hOc] at hpre
              exact absurd hpre (by simp)
            | some a =>
              rw [preludeW_shape w a hOc, Except.ok.injEq] at hpre
              subst hpre
              have hC1 : ((⟨originSetF (clearFramePins w.canvas) (anchorHV a).1 (anchorHV a).2,
                  w.frames.map clearFramePins, w.names, w.origin⟩ : World).pinC
                    ⟨.canvas, .hor, (anchorHV a).1⟩).pos.isSome = true := by
                rw [pinC_originSetF_hor]
                rfl
              have hC2 : ((⟨originSetF (clearFramePins w.canvas) (anchorHV a).1 (anchorHV a).2,
                  w.frames.map clearFramePins, w.names, w.origin⟩ : World).pinC
                    ⟨.canvas, .ver, (anchorHV a).2⟩).pos.isSome = true := by
                rw [pinC_originSetF_ver]
                rfl
              have consD := solveFramesList_cons fuel _ _ wD hD
              have hD1 := consD.2 _ hC1
              have hD2 := consD.2 _ hC2
              have consH := solveCanvasRuler_cons fuel wD .hor (anchorHV a).1 hD1 wE warnsH hH
              have hE2 := consH.2 _ hD2
              have consV := solveCanvasRuler_cons fuel wE .ver (anchorHV a).2 hE2 wF warnsV hV
              have hskel := consV.1.trans (consH.1.trans consD.1)
              have ho1 : wF.origin = w.origin := by
                have hh := congrArg World.origin hskel
                exact hh
              have hnames : wF.names = w.names := by
                have hh := congrArg World.names hskel
                exact hh
              have hcanvasC : clearFramePins wF.canvas
                  = clearFramePins (originSetF (clearFramePins w.canvas)
                    (anchorHV a).1 (anchorHV a).2) := by
                have hh := congrArg World.canvas hskel
                exact hh
              have hframes : wF.frames.map clearFramePins
                  = (w.frames.map clearFramePins).map clearFramePins := by
                have hh := congrArg World.frames hskel
                exact hh
              have hO1 : anchorOfString wF.origin = some a := by rw [ho1]; exact hOc
              unfold placeAllFrames
              rw [preludeW_shape wF a hO1]
              dsimp only
              rw [show (⟨originSetF (clearFramePins wF.canvas) (anchorHV a).1 (anchorHV a).2,
                  wF.frames.map clearFramePins, wF.names, wF.origin⟩ : World)
                = (⟨originSetF (clearFramePins w.canvas) (anchorHV a).1 (anchorHV a).2,
                  w.frames.map clearFramePins, w.names, w.origin⟩ : World) from by
                rw [hcanvasC, originSetF_clear_collapse, clearFramePins_idem,
                  hframes, map_clear_idem, hnames, ho1]]
              rw [hframes, map_clear_idem]
              dsimp only at hD
              rw [hD]
              dsimp only
              rw [hver]
              dsimp only
              rw [hH]
              dsimp only
              rw [hV]

/-- Witness for C9 on the concrete layout `demoWorld` (one frame anchored to
the canvas origin, canvas auto-sized). -/
theorem placeAllFrames_stable_witness :
    placeAllFrames 30 demoWorld = .ok (demoSolved.1, demoSolved.2) ∧
    placeAllFrames 30 demoSolved.1 = .ok (demoSolved.1, demoSolved.2) :=
  ⟨by decide, placeAllFrames_stable 30 demoWorld demoSolved.1 demoSolved.2 (by decide)⟩

end MplLayout
